import Mathlib

/-!
# A verification development for the `rs2048` repository

Shallow embedding of the two crates:

* `data_grid/src/lib.rs` — the generic rectangular grid container `DataGrid<T>`,
* `rs2048/src/board.rs` — the 2048 `Board` (tile ranks stored as `u8` exponents),
* `rs2048/src/game.rs`  — the `Game` state-transition wrapper.

Rust `Vec<T>` is modelled as `List`; the tile type `u8` is modelled as `Nat`
with the single overflowing operation (`tile + 1` in `merge_tiles`) taken
modulo `2^8`.  Functions that mutate `&mut self` are modelled as explicit
state passing: they return the new value together with the `Result`.  Code
paths that `panic!`/`unwrap` on `Err`/`None` are modelled with `Option`
(`none` = panic) where the panic is reachable, and are commented where the
panic is dead code.
-/

/-- `DataGrid<T>` from `data_grid/src/lib.rs`: the field `values: Vec<Vec<T>>`
stores the rows. -/
structure DataGrid (α : Type) where
  values : List (List α)
deriving DecidableEq

/-- `MatrixError` from `data_grid/src/lib.rs`. -/
inductive MatrixError
  | InvalidDataLength (msg : String)
  | IndexNotFound
deriving DecidableEq

namespace DataGrid

variable {α : Type}

/-- `DataGrid::new(width, height, initial_value)`:
`values = vec![vec![initial_value; width]; height]`. -/
def new (width height : Nat) (initial_value : α) : DataGrid α :=
  ⟨List.replicate height (List.replicate width initial_value)⟩

/-- `DataGrid::get_row`: `self.values.get(index).cloned()`. -/
def get_row (g : DataGrid α) (index : Nat) : Option (List α) :=
  g.values[index]?

/-- `DataGrid::get_column`: `self.values.iter().map(|vec| vec.get(index).cloned()).collect()`
— collecting `Option`s, so the result is `none` as soon as one row is too short. -/
def get_column (g : DataGrid α) (index : Nat) : Option (List α) :=
  g.values.mapM (fun row => row[index]?)

/-- `DataGrid::get_height`: `self.values.len()`. -/
def get_height (g : DataGrid α) : Nat := g.values.length

/-- `DataGrid::get_width`: `self.values[0].len()`.  The source indexes row 0
directly, which panics on a grid with no rows; construction forbids such grids,
and we model the (dead) empty case by `headD`, giving width `0`. -/
def get_width (g : DataGrid α) : Nat := (g.values.headD []).length

/-- `DataGrid::update_row`: first the length check against `self.values[0].len()`,
then `get_mut(index)` with `*row = data`.  Returned pair = (state after the call,
returned `Result`). -/
def update_row (g : DataGrid α) (index : Nat) (data : List α) :
    DataGrid α × Except MatrixError Unit :=
  if data.length ≠ g.get_width then
    (g, .error (.InvalidDataLength "Input data length is not equal to matrix width!"))
  else
    match g.values[index]? with
    | some _ => (⟨g.values.set index data⟩, .ok ())
    | none => (g, .error .IndexNotFound)

/-- The `for (row, value) in self.values.iter_mut().zip(data)` loop of
`DataGrid::update_column`: writes `row[index] = value` row by row, and returns
early with `IndexNotFound` when a row is too short.  Rows already written stay
written (the source mutates in place), which the returned row list reflects. -/
def setColumnCells : List (List α) → List α → Nat → List (List α) × Option MatrixError
  | rows, [], _ => (rows, none)
  | [], _ :: _, _ => ([], none)
  | row :: rows, v :: vs, index =>
    match row[index]? with
    | some _ =>
      let r := setColumnCells rows vs index
      (row.set index v :: r.1, r.2)
    | none => (row :: rows, some .IndexNotFound)

/-- `DataGrid::update_column`: length check against `self.values.len()`, then
the zip loop `setColumnCells`. -/
def update_column (g : DataGrid α) (index : Nat) (data : List α) :
    DataGrid α × Except MatrixError Unit :=
  if data.length ≠ g.values.length then
    (g, .error (.InvalidDataLength "Input data length is not equal to matrix height!"))
  else
    let r := setColumnCells g.values data index
    match r.2 with
    | none => (⟨r.1⟩, .ok ())
    | some e => (⟨r.1⟩, .error e)

/-- `DataGrid::update_single_position(row, column, value)`:
`values.get_mut(row)?.get_mut(column)? = value`, `IndexNotFound` when either
index is out of bounds (and then nothing is written). -/
def update_single_position (g : DataGrid α) (row column : Nat) (value : α) :
    DataGrid α × Except MatrixError Unit :=
  match g.values[row]? with
  | none => (g, .error .IndexNotFound)
  | some r =>
    match r[column]? with
    | none => (g, .error .IndexNotFound)
    | some _ => (⟨g.values.set row (r.set column value)⟩, .ok ())

/-- `DataGrid::transpose`: early return on an empty grid (dead code, see the
source comment), otherwise the rows of the result are
`(0..width).map(|i| get_column(i).unwrap_or_default())`. -/
def transpose (g : DataGrid α) : DataGrid α :=
  match g.values with
  | [] => g
  | _ :: _ => ⟨(List.range g.get_width).map (fun i => (g.get_column i).getD [])⟩

/-- `DataGrid::iter_rows` (as the underlying list of rows). -/
def iter_rows (g : DataGrid α) : List (List α) := g.values

/-- `DataGrid::get_values`. -/
def get_values (g : DataGrid α) : List (List α) := g.values

/-- `TryFrom<Vec<Vec<T>>> for DataGrid<T>`: rejects an empty row list, an empty
first row, and jagged rows; otherwise takes ownership of the rows.
(`value[0]` is modelled by `headD []`, reached only in the non-empty case.) -/
def tryFrom (value : List (List α)) : Except MatrixError (DataGrid α) :=
  if value.isEmpty then
    .error (.InvalidDataLength "Matrix must be at least 1 wide")
  else if (value.headD []).isEmpty then
    .error (.InvalidDataLength "Matrix must be at least 1 tall")
  else if !(value.all (fun inner => inner.length == (value.headD []).length)) then
    .error (.InvalidDataLength "Matrix rows must have consistent lengths")
  else
    .ok ⟨value⟩

/-- The rectangularity invariant the constructors establish: at least one row,
at least one column, and every row of the declared width. -/
def Rect (g : DataGrid α) : Prop :=
  0 < g.values.length ∧ g.get_width ≠ 0 ∧ ∀ r ∈ g.values, r.length = g.get_width

instance (g : DataGrid α) : Decidable (Rect g) := by
  unfold Rect; infer_instance

/-- Read one cell: `some` of the stored value when both indices are in bounds. -/
def cellAt (g : DataGrid α) (row col : Nat) : Option α :=
  match g.values[row]? with
  | some r => r[col]?
  | none => none

end DataGrid

/-- `pub type TileType = u8` from `rs2048/src/board.rs`, modelled as `Nat`
(the one place where `u8` arithmetic can overflow, `tile + 1` in
`merge_tiles`, is taken `% 2^8`). -/
abbrev TileType := Nat

/-- `Board` from `rs2048/src/board.rs`: tiles are stored as their power of 2
exponent; `0` is the empty cell. -/
structure Board where
  board : DataGrid TileType
deriving DecidableEq

/-- `BoardError` from `rs2048/src/board.rs`. -/
inductive BoardError
  | AddRandomTileError
deriving DecidableEq

namespace Board

/-- `Board::new(size)`. -/
def new (size : Nat) : Board := ⟨DataGrid.new size size 0⟩

/-- `Board::place_item_in_board(column, row, value)`: forwards to
`update_single_position(column, row, value)` (the argument names are crossed in
the source; the net effect of `add_random_tile`'s call is a write at
`values[y][x]`). -/
def place_item_in_board (b : Board) (column row : Nat) (value : TileType) :
    Board × Except MatrixError Unit :=
  let r := b.board.update_single_position column row value
  (⟨r.1⟩, r.2)

/-- One iteration of the `for &tile in tiles.iter().skip(1)` loop of
`Board::merge_tiles`; the state is `(last_seen_tile, result)`:

* `tile == 0` → `continue`;
* `tile == last_seen_tile` → push the merged tile `tile + 1` (a `u8` sum,
  hence `% 2^8`) and reset `last_seen_tile` to `0`;
* otherwise push the old `last_seen_tile` when non-zero and carry `tile`. -/
def mergeStep (s : TileType × List TileType) (tile : TileType) : TileType × List TileType :=
  if tile = 0 then s
  else if tile = s.1 then (0, s.2 ++ [(tile + 1) % 256])
  else if s.1 ≠ 0 then (tile, s.2 ++ [s.1])
  else (tile, s.2)

/-- The tiles `Board::merge_tiles` has pushed just after the loop and the final
`result.push(last_seen_tile)`, before the padding `result.extend(...)`. -/
def merge_emit (tiles : List TileType) : List TileType :=
  match tiles with
  | [] => []
  | t0 :: rest =>
    let s := rest.foldl mergeStep (t0, [])
    s.2 ++ [s.1]

/-- `Board::merge_tiles`: early return `vec![]` on empty input; otherwise the
scan (`merge_emit`) followed by `result.extend([0].repeat(tiles.len() - result.len()))`. -/
def merge_tiles (tiles : List TileType) : List TileType :=
  match tiles with
  | [] => []
  | _ :: _ =>
    merge_emit tiles ++ List.replicate (tiles.length - (merge_emit tiles).length) 0

end Board

/-- The scan of the spec's reference merge algorithm (spec §4.2, steps 2–4),
over the values that remain after discarding empties.  The carry is `none`
until "the first value encountered"; a value equal to the carry is merged into
a single tile of rank+1 (`u8` arithmetic per spec §3, hence `% 2^8`) and the
carry resets so that the merged tile cannot merge again; a differing value
emits the carry and replaces it.  After the scan any remaining carry is
emitted. -/
def specScan (carry : Option TileType) (out : List TileType) :
    List TileType → List TileType
  | [] =>
    match carry with
    | some c => out ++ [c]
    | none => out
  | v :: vs =>
    match carry with
    | none => specScan (some v) out vs
    | some c =>
      if v = c then specScan none (out ++ [(c + 1) % 256]) vs
      else specScan (some v) (out ++ [c]) vs

/-- The spec's reference merge (spec §4.2): discard all empty cells, scan with
a carry, then pad the emitted sequence on the right with empties to the
original length. -/
def spec_merge (tiles : List TileType) : List TileType :=
  let emitted := specScan none [] (tiles.filter (fun t => t != 0))
  emitted ++ List.replicate (tiles.length - emitted.length) 0

namespace Board

/-- Body of one iteration of the row loops of `Board::merge_left` /
`Board::merge_right`: `get_row(i).unwrap()` then
`update_row(i, f(row)).unwrap()`, where `f` is the per-row transform
(`merge_tiles` for left, reverse–merge–reverse for right).  `none` models the
`unwrap` panics. -/
def rowStep (f : List TileType → List TileType) (cur : DataGrid TileType) (i : Nat) :
    Option (DataGrid TileType) :=
  match cur.get_row i with
  | none => none
  | some row =>
    let r := cur.update_row i (f row)
    match r.2 with
    | .ok _ => some r.1
    | .error _ => none

/-- The `for i in 0..self.board.get_height()` loop shared by `merge_left` and
`merge_right`. -/
def rowLoop (f : List TileType → List TileType) (g : DataGrid TileType) :
    Option (DataGrid TileType) :=
  (List.range g.get_height).foldlM (rowStep f) g

/-- Body of one iteration of the column loops of `Board::merge_up` /
`Board::merge_down`: `get_column(i).unwrap()` then
`update_column(i, f(column)).unwrap()`. -/
def colStep (f : List TileType → List TileType) (cur : DataGrid TileType) (i : Nat) :
    Option (DataGrid TileType) :=
  match cur.get_column i with
  | none => none
  | some col =>
    let r := cur.update_column i (f col)
    match r.2 with
    | .ok _ => some r.1
    | .error _ => none

/-- The `for i in 0..self.board.get_width()` loop shared by `merge_up` and
`merge_down`. -/
def colLoop (f : List TileType → List TileType) (g : DataGrid TileType) :
    Option (DataGrid TileType) :=
  (List.range g.get_width).foldlM (colStep f) g

/-- `Board::merge_up`: per column, `merge_tiles`. -/
def merge_up (b : Board) : Option Board :=
  (colLoop merge_tiles b.board).map Board.mk

/-- `Board::merge_down`: per column, reverse, `merge_tiles`, reverse back. -/
def merge_down (b : Board) : Option Board :=
  (colLoop (fun c => (merge_tiles c.reverse).reverse) b.board).map Board.mk

/-- `Board::merge_left`: per row, `merge_tiles`. -/
def merge_left (b : Board) : Option Board :=
  (rowLoop merge_tiles b.board).map Board.mk

/-- `Board::merge_right`: per row, reverse, `merge_tiles`, reverse back. -/
def merge_right (b : Board) : Option Board :=
  (rowLoop (fun r => (merge_tiles r.reverse).reverse) b.board).map Board.mk

/-- The `empty_positions` list of `Board::add_random_tile`:
`iter_rows().enumerate().flat_map(|(y, row)| row.enumerate().filter(item == 0).map(|(x, _)| (x, y)))`
— `(x, y)` coordinates of the empty cells, in row-major order. -/
def empty_positions (b : Board) : List (Nat × Nat) :=
  b.board.iter_rows.enum.flatMap
    (fun p => (p.2.enum.filter (fun q => q.2 == 0)).map (fun q => (q.1, p.1)))

/-- `SliceRandom::choose(&mut rng)` with the RNG draw `i` made explicit: `none`
exactly on the empty slice, otherwise some element of the slice (here: the
entry at `i % len`, so every entry is reachable by some draw). -/
def listChoose {α : Type} (l : List α) (i : Nat) : Option α :=
  l[(i % l.length)]?

/-- `[1, 2].choose_weighted(rng, 3:1)` with the RNG draw `j` made explicit:
rank 1 (a "2" tile) three times as likely as rank 2 (a "4" tile). -/
def choose_weighted_value (j : Nat) : TileType :=
  if j % 4 < 3 then 1 else 2

/-- `Board::add_random_tile`, with the two RNG draws `i` (cell choice) and `j`
(value choice) made explicit.  On `Some(pos)` the source calls
`place_item_in_board(pos.1, pos.0, value).unwrap()`: the unwrap is dead code
because the chosen position is an in-bounds cell of the board
(`place_item_at_empty_position_ok` below), so the pair is returned with `Ok`.
With no empty position it fails with `AddRandomTileError` and the board is
untouched. -/
def add_random_tile (b : Board) (i j : Nat) : Board × Except BoardError Unit :=
  match listChoose (empty_positions b) i with
  | some pos =>
    let r := b.place_item_in_board pos.2 pos.1 (choose_weighted_value j)
    (r.1, .ok ())
  | none => (b, .error .AddRandomTileError)

/-- `Board::get_data_for_display`. -/
def get_data_for_display (b : Board) : List (List TileType) :=
  b.board.get_values

end Board

/-- `GameEvent` from `rs2048/src/game.rs`. -/
inductive GameEvent
  | SwipeUp | SwipeDown | SwipeLeft | SwipeRight
  | Undo | SaveGame | LoadGame | NewGame
deriving DecidableEq

/-- `GameError` from `rs2048/src/game.rs`. -/
inductive GameError
  | AddRandomTileError
deriving DecidableEq

/-- `Game` from `rs2048/src/game.rs`.  `score: u32` never overflows in the
code in scope (it is never written), so plain `Nat` is faithful here. -/
structure Game where
  board : Board
  score : Nat
  is_game_over : Bool
  game_over_reason : Option String
deriving DecidableEq

namespace Game

/-- `Game::start_new_game`: a fresh 4×4 board with one random tile.  The
source unwraps `add_random_tile`, which cannot fail on the all-empty board. -/
def start_new_game (i j : Nat) : Except GameError Game :=
  let game : Game :=
    { board := Board.new 4, score := 0, is_game_over := false, game_over_reason := none }
  .ok { game with board := (Board.add_random_tile game.board i j).1 }

/-- The body shared by the four swipe arms of `Game::handle_event`:
`before` is the clone of `self` taken before the merge, `mergedBoard` is
`self.board` after the directional merge (`none` when the merge `unwrap`s).
Only when the merged board differs from the snapshot (structural inequality)
is a random tile inserted, its failure mapped to
`GameError::AddRandomTileError` by `.or(Err(AddRandomTileError))?`; then
`Ok(self)` is returned. -/
def applySwipe (g : Game) (mergedBoard : Option Board) (i j : Nat) :
    Option (Except GameError Game) :=
  match mergedBoard with
  | none => none
  | some merged =>
    if merged ≠ g.board then
      let r := Board.add_random_tile merged i j
      match r.2 with
      | .ok _ => some (.ok { g with board := r.1 })
      | .error _ => some (.error .AddRandomTileError)
    else some (.ok { g with board := merged })

/-- `Game::handle_event`, with the RNG draws `i`, `j` made explicit.  The
`Undo`/`SaveGame`/`LoadGame` arms are `todo!()` panics, modelled as `none`;
the merge `unwrap` panics propagate from the merge model through
`applySwipe`. -/
def handle_event (g : Game) (event : GameEvent) (i j : Nat) :
    Option (Except GameError Game) :=
  match event with
  | .SwipeUp => applySwipe g (Board.merge_up g.board) i j
  | .SwipeDown => applySwipe g (Board.merge_down g.board) i j
  | .SwipeLeft => applySwipe g (Board.merge_left g.board) i j
  | .SwipeRight => applySwipe g (Board.merge_right g.board) i j
  | .Undo => none
  | .SaveGame => none
  | .LoadGame => none
  | .NewGame => some (start_new_game i j)

/-- `Game::read_board_state`. -/
def read_board_state (g : Game) : List (List TileType) :=
  g.board.get_data_for_display

end Game

namespace Board

/-- Column `x` of a row list, as the list of entries `row[x]` in row order
(defaulting to `0` out of bounds; only used at in-bounds indices of
rectangular grids). -/
def colAt (vs : List (List TileType)) (x : Nat) : List TileType :=
  vs.map (fun r => r.getD x 0)

/-- `a :: l` has no two adjacent equal entries. -/
def chainNeqB : List TileType → Bool
  | [] => true
  | [_] => true
  | a :: b :: rest => (a != b) && chainNeqB (b :: rest)

/-- A line is *fully collapsed* when all its non-empty tiles sit at the front
with no two adjacent equal, followed only by empties (spec's "a fully
collapsed row cannot collapse further"). -/
def isCollapsed (xs : List TileType) : Bool :=
  ((xs.dropWhile (fun t => t != 0)).all (fun t => t == 0)) &&
    chainNeqB (xs.takeWhile (fun t => t != 0))

end Board

section MergeTilesFacts

/-- After folding `mergeStep` the emitted list grew by at most one per tile. -/
theorem Board.foldl_mergeStep_length_le (l : List TileType) :
    ∀ s : TileType × List TileType,
      (l.foldl Board.mergeStep s).2.length ≤ s.2.length + l.length := by
  induction l with
  | nil => intro s; simp
  | cons v vs ih =>
    intro s
    rw [List.foldl_cons]
    refine le_trans (ih _) ?_
    have h : (Board.mergeStep s v).2.length ≤ s.2.length + 1 := by
      unfold Board.mergeStep
      split_ifs <;> simp
    simp only [List.length_cons]
    omega

/-- The emitted list never outgrows the input, so the padding count
`tiles.len() - result.len()` cannot underflow. -/
theorem Board.merge_emit_length_le (tiles : List TileType) :
    (Board.merge_emit tiles).length ≤ tiles.length := by
  cases tiles with
  | nil => simp [Board.merge_emit]
  | cons t0 rest =>
    have h := Board.foldl_mergeStep_length_le rest (t0, [])
    simp only [Board.merge_emit, List.length_append, List.length_cons, List.length_nil]
    simp only [List.length_nil, Nat.zero_add] at h
    omega

/-- `merge_tiles` returns exactly as many tiles as it was given. -/
theorem Board.merge_tiles_length (tiles : List TileType) :
    (Board.merge_tiles tiles).length = tiles.length := by
  cases tiles with
  | nil => simp [Board.merge_tiles]
  | cons t0 rest =>
    have h := Board.merge_emit_length_le (t0 :: rest)
    simp only [Board.merge_tiles, List.length_append, List.length_replicate]
    omega

end MergeTilesFacts

section SpecMergeEquivalence

/-- The loop of `merge_tiles` and the spec's scan step in lockstep: starting
from the code's `last_seen_tile` state (where `0` doubles as "no carry") and
the spec's corresponding `Option` carry, both produce the same emitted tiles —
except that the code will additionally push a final `0` when the carry is
empty, which the `if`-term on the right leaves out. -/
theorem specScan_eq_foldl_mergeStep (l : List TileType) :
    ∀ (last : TileType) (res : List TileType),
      specScan (if last = 0 then none else some last) res (l.filter (fun t => t != 0)) =
        (l.foldl Board.mergeStep (last, res)).2 ++
          (if (l.foldl Board.mergeStep (last, res)).1 = 0 then []
           else [(l.foldl Board.mergeStep (last, res)).1]) := by
  induction l with
  | nil =>
    intro last res
    by_cases h : last = 0 <;> simp [h, specScan]
  | cons v vs ih =>
    intro last res
    by_cases hv : v = 0
    · subst hv
      have hstep : Board.mergeStep (last, res) 0 = (last, res) := by
        simp [Board.mergeStep]
      simp only [List.filter_cons, List.foldl_cons, hstep]
      simpa using ih last res
    · by_cases hl : last = 0
      · subst hl
        have hstep : Board.mergeStep (0, res) v = (v, res) := by
          simp [Board.mergeStep, hv]
        have hfilter : (v :: vs).filter (fun t => t != 0) = v :: vs.filter (fun t => t != 0) := by
          simp [List.filter_cons, hv]
        rw [hfilter, List.foldl_cons, hstep]
        have := ih v res
        rw [if_neg hv] at this
        simpa [specScan] using this
      · by_cases hvl : v = last
        · subst hvl
          have hstep : Board.mergeStep (v, res) v = (0, res ++ [(v + 1) % 256]) := by
            simp [Board.mergeStep, hv]
          have hfilter : (v :: vs).filter (fun t => t != 0) = v :: vs.filter (fun t => t != 0) := by
            simp [List.filter_cons, hv]
          rw [hfilter, List.foldl_cons, hstep]
          have := ih 0 (res ++ [(v + 1) % 256])
          rw [if_pos rfl] at this
          simp only [if_neg hv, specScan, if_pos rfl]
          exact this
        · have hstep : Board.mergeStep (last, res) v = (v, res ++ [last]) := by
            simp [Board.mergeStep, hv, hvl, hl]
          have hfilter : (v :: vs).filter (fun t => t != 0) = v :: vs.filter (fun t => t != 0) := by
            simp [List.filter_cons, hv]
          rw [hfilter, List.foldl_cons, hstep]
          have := ih v (res ++ [last])
          rw [if_neg hv] at this
          have hne : ¬ v = last := hvl
          simp only [if_neg hl, specScan, if_neg hne]
          exact this

/-- C1: `Board::merge_tiles` computes exactly the spec's reference algorithm:
discard empties, scan the remaining values left to right with a carry
(initially the first value encountered), merge a value equal to the carry into
a single tile of rank+1 and reset the carry (no second merge in the same
pass), emit the non-empty carry on a differing value, emit any remaining carry
after the scan, and pad on the right with empties to the original length.  In
particular empty cells between equal tiles never block their merge. -/
theorem claim_C1_merge_tiles_refines_spec (tiles : List TileType) :
    Board.merge_tiles tiles = spec_merge tiles := by
  cases tiles with
  | nil => simp [Board.merge_tiles, spec_merge, specScan]
  | cons t0 rest =>
    have hlen : (rest.foldl Board.mergeStep (t0, [])).2.length ≤ rest.length := by
      have h := Board.foldl_mergeStep_length_le rest (t0, [])
      simpa using h
    have hemit :
        specScan none [] ((t0 :: rest).filter (fun t => t != 0)) =
          (rest.foldl Board.mergeStep (t0, [])).2 ++
            (if (rest.foldl Board.mergeStep (t0, [])).1 = 0 then []
             else [(rest.foldl Board.mergeStep (t0, [])).1]) := by
      by_cases h0 : t0 = 0
      · subst h0
        have hfilter : ((0 : TileType) :: rest).filter (fun t => t != 0) =
            rest.filter (fun t => t != 0) := by
          simp [List.filter_cons]
        rw [hfilter]
        have := specScan_eq_foldl_mergeStep rest 0 []
        rw [if_pos rfl] at this
        exact this
      · have hfilter : (t0 :: rest).filter (fun t => t != 0) =
            t0 :: rest.filter (fun t => t != 0) := by
          simp [List.filter_cons, h0]
        rw [hfilter]
        have := specScan_eq_foldl_mergeStep rest t0 []
        rw [if_neg h0] at this
        simpa [specScan] using this
    simp only [spec_merge, hemit, Board.merge_tiles, Board.merge_emit]
    by_cases hs1 : (rest.foldl Board.mergeStep (t0, [])).1 = 0
    · rw [if_pos hs1, hs1]
      set r := (rest.foldl Board.mergeStep (t0, [])).2 with hr
      have h1 : (t0 :: rest).length - r.length =
          ((t0 :: rest).length - (r ++ [0]).length) + 1 := by
        simp only [List.length_append, List.length_cons, List.length_nil]
        omega
      simp only [List.append_nil]
      rw [h1, List.replicate_succ]
      simp
    · simp only [if_neg hs1]

/-- C2: the spec's merge correctness table, computed by `Board::merge_tiles`
(rank encoding, front = left): `[2,2,0,0] → [3,0,0,0]`, `[2,0,2,0] → [3,0,0,0]`,
`[2,3,2,3]` unchanged, `[2,2,2,2] → [3,3,0,0]` (pairwise, not cascading),
`[] → []` and `[2] → [2]`. -/
theorem claim_C2_merge_table :
    Board.merge_tiles [2, 2, 0, 0] = [3, 0, 0, 0] ∧
    Board.merge_tiles [2, 0, 2, 0] = [3, 0, 0, 0] ∧
    Board.merge_tiles [2, 3, 2, 3] = [2, 3, 2, 3] ∧
    Board.merge_tiles [2, 2, 2, 2] = [3, 3, 0, 0] ∧
    Board.merge_tiles [] = [] ∧
    Board.merge_tiles [2] = [2] := by
  refine ⟨?_, ?_, ?_, ?_, ?_, ?_⟩ <;> decide

/-- C6: the number of tiles `Board::merge_tiles` emits before padding never
exceeds the input length, so the padding count `tiles.len() - result.len()`
never underflows, and the padded result has exactly the input's length. -/
theorem claim_C6_merge_tiles_length (tiles : List TileType) :
    (Board.merge_emit tiles).length ≤ tiles.length ∧
      (Board.merge_tiles tiles).length = tiles.length :=
  ⟨Board.merge_emit_length_le tiles, Board.merge_tiles_length tiles⟩

/-- C10: tile ranks are 8-bit (`TileType = u8`), and the merged tile's rank is
the `u8` sum `rank + 1`: two equal tiles of rank `r ≤ 254` merge to exactly
`r + 1`, while two tiles of the maximal rank 255 merge to `(255+1) mod 2^8 = 0`,
the empty sentinel. -/
theorem claim_C10_merge_rank_u8 (r : Nat) (h0 : r ≠ 0) (h254 : r ≤ 254) :
    Board.merge_tiles [r, r] = [r + 1, 0] ∧
      Board.merge_tiles [255, 255] = [0, 0] := by
  constructor
  · have hmod : (r + 1) % 256 = r + 1 := by omega
    simp [Board.merge_tiles, Board.merge_emit, Board.mergeStep, h0, hmod]
  · decide

/-- Witness for C10 at `r = 7`: two rank-7 tiles (displayed 128) merge to a
single rank-8 tile (displayed 256). -/
theorem claim_C10_merge_rank_u8_witness :
    Board.merge_tiles [7, 7] = [8, 0] ∧ Board.merge_tiles [255, 255] = [0, 0] :=
  claim_C10_merge_rank_u8 7 (by decide) (by decide)

end SpecMergeEquivalence

section GridConstruction

/-- C7: `DataGrid::try_from` succeeds on every non-empty input with a
non-empty first row and uniform row lengths (hence all rows non-empty), with
`width()`/`height()` matching the input; it fails with the invalid-dimensions
error on empty input, an empty first row, or jagged rows; and whenever it
produces a grid, that grid is exactly the input rows and satisfies the
rectangularity invariant, so an invalid grid never comes out of it. -/
theorem claim_C7_tryFrom_validation {α : Type} (v : List (List α)) :
    (v ≠ [] → (v.headD []) ≠ [] → (∀ r ∈ v, r.length = (v.headD []).length) →
      DataGrid.tryFrom v = .ok (⟨v⟩ : DataGrid α) ∧
      (DataGrid.mk v).get_width = (v.headD []).length ∧
      (DataGrid.mk v).get_height = v.length) ∧
    (v = [] → ∃ s, DataGrid.tryFrom v = .error (.InvalidDataLength s)) ∧
    (v.headD [] = [] → ∃ s, DataGrid.tryFrom v = .error (.InvalidDataLength s)) ∧
    ((∃ r ∈ v, r.length ≠ (v.headD []).length) →
      ∃ s, DataGrid.tryFrom v = .error (.InvalidDataLength s)) ∧
    (∀ g, DataGrid.tryFrom v = .ok g → g.values = v ∧ DataGrid.Rect g) := by
  cases v with
  | nil =>
    refine ⟨?_, ?_, ?_, ?_, ?_⟩
    · intro hne _ _; exact absurd rfl hne
    · intro _; exact ⟨"Matrix must be at least 1 wide", by simp [DataGrid.tryFrom]⟩
    · intro _; exact ⟨"Matrix must be at least 1 wide", by simp [DataGrid.tryFrom]⟩
    · rintro ⟨r, hr, _⟩; simp at hr
    · intro g hok; simp [DataGrid.tryFrom] at hok
  | cons r0 rest =>
    refine ⟨?_, ?_, ?_, ?_, ?_⟩
    · intro _ hh hun
      simp only [List.headD_cons] at hh hun ⊢
      have h4 : ∀ x ∈ rest, x.length = r0.length := fun x hx =>
        hun x (List.mem_cons_of_mem r0 hx)
      refine ⟨?_, rfl, rfl⟩
      simp only [DataGrid.tryFrom, List.isEmpty_iff, List.headD_cons]
      rw [if_neg (by simp), if_neg (by simpa [List.isEmpty_iff] using hh), if_neg ?_]
      have hall : (r0 :: rest).all (fun inner => inner.length == r0.length) = true := by
        rw [List.all_eq_true]
        intro x hx
        simpa using hun x hx
      simp [hall]
    · intro h; exact absurd h (by simp)
    · intro hh
      simp only [List.headD_cons] at hh
      subst hh
      exact ⟨"Matrix must be at least 1 tall", by simp [DataGrid.tryFrom]⟩
    · rintro ⟨r, hr, hlen⟩
      simp only [List.headD_cons] at hlen
      by_cases hh : r0 = []
      · subst hh
        exact ⟨"Matrix must be at least 1 tall", by simp [DataGrid.tryFrom]⟩
      · have hrrest : r ∈ rest := by
          rcases List.mem_cons.mp hr with h | h
          · subst h; exact absurd rfl hlen
          · exact h
        have h3 : ∃ x ∈ rest, ¬x.length = r0.length := ⟨r, hrrest, hlen⟩
        exact ⟨"Matrix rows must have consistent lengths",
          by simp [DataGrid.tryFrom, List.isEmpty_iff, hh, h3]⟩
    · intro g hok
      by_cases hh : r0 = []
      · subst hh
        simp [DataGrid.tryFrom] at hok
      · by_cases h3 : ∃ x ∈ rest, ¬x.length = r0.length
        · simp [DataGrid.tryFrom, List.isEmpty_iff, hh, h3] at hok
        · have hg : g = ⟨r0 :: rest⟩ := by
            simp [DataGrid.tryFrom, List.isEmpty_iff, hh, h3] at hok
            exact hok.symm
          subst hg
          push_neg at h3
          refine ⟨rfl, by simp [DataGrid.Rect], ?_, ?_⟩
          · simpa [DataGrid.get_width, List.length_eq_zero] using hh
          · intro r hr
            rcases List.mem_cons.mp hr with h | h
            · subst h; rfl
            · simpa [DataGrid.get_width] using h3 r h

/-- Witness for C7: a 2×2 grid is accepted verbatim, and the empty input, an
empty first row and jagged rows are each rejected with the
invalid-dimensions error. -/
theorem claim_C7_tryFrom_validation_witness :
    DataGrid.tryFrom [[1, 2], [3, 4]] = .ok (⟨[[1, 2], [3, 4]]⟩ : DataGrid Nat) ∧
    (∃ s, DataGrid.tryFrom ([] : List (List Nat)) = .error (.InvalidDataLength s)) ∧
    (∃ s, DataGrid.tryFrom [([] : List Nat), [1]] = .error (.InvalidDataLength s)) ∧
    (∃ s, DataGrid.tryFrom [[1, 2], [3]] = .error (.InvalidDataLength s)) :=
  ⟨((claim_C7_tryFrom_validation [[1, 2], [3, 4]]).1 (by decide) (by decide)
      (by decide)).1,
   (claim_C7_tryFrom_validation ([] : List (List Nat))).2.1 rfl,
   (claim_C7_tryFrom_validation [([] : List Nat), [1]]).2.2.1 (by decide),
   (claim_C7_tryFrom_validation [[1, 2], [3]]).2.2.2.1 ⟨[3], by decide, by decide⟩⟩

end GridConstruction

section RowColumnUpdates

/-- When every row is long enough, the `update_column` zip loop writes cell
`index` of each row (pairing rows with data entries in order) and reports no
error. -/
theorem DataGrid.setColumnCells_ok {α : Type} (index : Nat) :
    ∀ (rows : List (List α)) (data : List α),
      (∀ r ∈ rows, index < r.length) →
      DataGrid.setColumnCells rows data index =
        (List.zipWith (fun row v => row.set index v) rows data ++
          rows.drop data.length, none) := by
  intro rows
  induction rows with
  | nil =>
    intro data _
    cases data <;> simp [DataGrid.setColumnCells]
  | cons row rows ih =>
    intro data hlen
    cases data with
    | nil => simp [DataGrid.setColumnCells]
    | cons v vs =>
      have hrow : index < row.length := hlen row (by simp)
      have hget : row[index]? = some row[index] := List.getElem?_eq_getElem hrow
      have hrest := ih vs (fun r hr => hlen r (List.mem_cons_of_mem row hr))
      simp only [DataGrid.setColumnCells, hget, hrest, List.zipWith_cons_cons,
        List.length_cons, List.drop_succ_cons, List.cons_append]

/-- When the first row is too short, the `update_column` zip loop fails
immediately with `IndexNotFound` and no row is modified. -/
theorem DataGrid.setColumnCells_err {α : Type} (index : Nat) (row : List α)
    (rows : List (List α)) (v : α) (vs : List α) (h : row.length ≤ index) :
    DataGrid.setColumnCells (row :: rows) (v :: vs) index =
      (row :: rows, some .IndexNotFound) := by
  have hget : row[index]? = none := List.getElem?_eq_none h
  simp [DataGrid.setColumnCells, hget]

/-- C8: on a rectangular grid, `update_row`/`update_column` fail with the
length-mismatch error whenever the data's length differs from the width (rows)
/ height (columns), with no cell mutated and before any index check; with
matching length but an out-of-bounds index they fail with `IndexNotFound`,
again mutating nothing on a rectangular grid; and otherwise they succeed,
replacing exactly row/column `i` and leaving every other cell unchanged. -/
theorem claim_C8_update_row_column {α : Type} (g : DataGrid α) (hg : DataGrid.Rect g)
    (i : Nat) (data : List α) :
    (data.length ≠ g.get_width →
      g.update_row i data =
        (g, .error (.InvalidDataLength "Input data length is not equal to matrix width!"))) ∧
    (data.length = g.get_width → g.get_height ≤ i →
      g.update_row i data = (g, .error .IndexNotFound)) ∧
    (data.length = g.get_width → i < g.get_height →
      g.update_row i data = (⟨g.values.set i data⟩, .ok ()) ∧
      ∀ y x, DataGrid.cellAt (g.update_row i data).1 y x =
        if y = i then data[x]? else DataGrid.cellAt g y x) ∧
    (data.length ≠ g.get_height →
      g.update_column i data =
        (g, .error (.InvalidDataLength "Input data length is not equal to matrix height!"))) ∧
    (data.length = g.get_height → g.get_width ≤ i →
      g.update_column i data = (g, .error .IndexNotFound)) ∧
    (data.length = g.get_height → i < g.get_width →
      (g.update_column i data).2 = .ok () ∧
      ∀ y x, DataGrid.cellAt (g.update_column i data).1 y x =
        if x = i ∧ y < g.get_height then data[y]? else DataGrid.cellAt g y x) := by
  obtain ⟨hpos, hw0, hrows⟩ := hg
  refine ⟨?_, ?_, ?_, ?_, ?_, ?_⟩
  · intro hne
    simp [DataGrid.update_row, hne]
  · intro hlen hi
    have hnone : g.values[i]? = none := List.getElem?_eq_none hi
    simp [DataGrid.update_row, hlen, hnone]
  · intro hlen hi
    rw [DataGrid.get_height] at hi
    have hsome : g.values[i]? = some g.values[i] :=
      List.getElem?_eq_getElem hi
    have heq : g.update_row i data = (⟨g.values.set i data⟩, .ok ()) := by
      simp [DataGrid.update_row, hlen, hsome]
    refine ⟨heq, ?_⟩
    intro y x
    rw [heq]
    by_cases hy : y = i
    · subst hy
      have h1 : (g.values.set y data)[y]? = some data :=
        List.getElem?_set_self (by omega)
      simp [DataGrid.cellAt, h1]
    · have h1 : (g.values.set i data)[y]? = g.values[y]? :=
        List.getElem?_set_ne (fun h => hy h.symm)
      simp [DataGrid.cellAt, h1, hy]
  · intro hne
    rw [DataGrid.get_height] at hne
    simp [DataGrid.update_column, hne]
  · intro hlen hi
    obtain ⟨row0, rest, hv⟩ : ∃ row0 rest, g.values = row0 :: rest := by
      cases hval : g.values with
      | nil => rw [hval] at hpos; simp at hpos
      | cons a l => exact ⟨a, l, rfl⟩
    obtain ⟨d0, ds, hd⟩ : ∃ d0 ds, data = d0 :: ds := by
      cases hdata : data with
      | nil =>
        rw [hdata] at hlen
        rw [DataGrid.get_height, hv] at hlen
        simp at hlen
      | cons a l => exact ⟨a, l, rfl⟩
    have hrow0 : row0.length ≤ i := by
      have := hrows row0 (by rw [hv]; simp)
      omega
    have herr := DataGrid.setColumnCells_err i row0 rest d0 ds hrow0
    rw [DataGrid.get_height] at hlen
    have hds : ds.length = rest.length := by
      rw [hv, hd] at hlen
      simpa using hlen
    simp only [DataGrid.update_column, hv, hd, herr]
    rw [if_neg (by simp [hds]), ← hv]
  · intro hlen hi
    rw [DataGrid.get_height] at hlen
    have hok := DataGrid.setColumnCells_ok i g.values data
      (fun r hr => by have := hrows r hr; omega)
    have hdrop : g.values.drop data.length = [] := by
      rw [hlen, List.drop_length]
    rw [hdrop, List.append_nil] at hok
    have heq : g.update_column i data =
        (⟨List.zipWith (fun row v => row.set i v) g.values data⟩, .ok ()) := by
      simp [DataGrid.update_column, hlen, hok]
    rw [heq]
    refine ⟨rfl, ?_⟩
    intro y x
    by_cases hy : y < g.values.length
    · have hdy : data[y]? = some data[y] := List.getElem?_eq_getElem (by omega)
      have hzip : (List.zipWith (fun row v => row.set i v) g.values data)[y]? =
          some (g.values[y].set i data[y]) := by
        rw [List.getElem?_zipWith, List.getElem?_eq_getElem hy,
          List.getElem?_eq_getElem (show y < data.length by omega)]
      have hcell : DataGrid.cellAt
          (⟨List.zipWith (fun row v => row.set i v) g.values data⟩ : DataGrid α) y x =
          (g.values[y].set i data[y])[x]? := by
        simp [DataGrid.cellAt, hzip]
      have hcellg : DataGrid.cellAt g y x = g.values[y][x]? := by
        simp [DataGrid.cellAt, List.getElem?_eq_getElem hy]
      rw [hcell, hcellg]
      by_cases hx : x = i
      · subst hx
        have hxlt : x < g.values[y].length := by
          have := hrows g.values[y] (List.getElem_mem hy)
          omega
        rw [List.getElem?_set_self hxlt, hdy,
          if_pos ⟨rfl, by rw [DataGrid.get_height]; omega⟩]
      · rw [List.getElem?_set_ne (fun h => hx h.symm),
          if_neg (by tauto)]
    · have hrowy : g.values[y]? = none := List.getElem?_eq_none (by omega)
      have hzipnone : (List.zipWith (fun row v => row.set i v) g.values data)[y]? = none := by
        apply List.getElem?_eq_none
        rw [List.length_zipWith]
        omega
      have hcell : DataGrid.cellAt
          (⟨List.zipWith (fun row v => row.set i v) g.values data⟩ : DataGrid α) y x = none := by
        simp [DataGrid.cellAt, hzipnone]
      have hcellg : DataGrid.cellAt g y x = none := by
        simp [DataGrid.cellAt, hrowy]
      rw [hcell, hcellg, if_neg]
      rintro ⟨_, hlt⟩
      rw [DataGrid.get_height] at hlt
      omega

/-- Witness for C8 on the grid `[[1,2],[3,4]]`: a successful row write at
index 0, and an out-of-bounds column write at index 5 that fails with
`IndexNotFound` leaving the grid unchanged. -/
theorem claim_C8_update_row_column_witness :
    (DataGrid.mk [[1, 2], [3, 4]]).update_row 0 [9, 9] =
      (⟨[[9, 9], [3, 4]]⟩, .ok ()) ∧
    (DataGrid.mk [[1, 2], [3, 4]]).update_column 5 [7, 7] =
      (⟨[[1, 2], [3, 4]]⟩, .error .IndexNotFound) := by
  constructor
  · exact ((claim_C8_update_row_column (⟨[[1, 2], [3, 4]]⟩ : DataGrid Nat)
      (by decide) 0 [9, 9]).2.2.1 (by decide) (by decide)).1
  · exact (claim_C8_update_row_column (⟨[[1, 2], [3, 4]]⟩ : DataGrid Nat)
      (by decide) 5 [7, 7]).2.2.2.2.1 (by decide) (by decide)

end RowColumnUpdates

section RandomInsertion

/-- `(x, y)` is listed among `empty_positions` exactly when cell `(row y, col x)`
exists and holds the empty sentinel `0`. -/
theorem Board.mem_empty_positions (b : Board) (x y : Nat) :
    (x, y) ∈ Board.empty_positions b ↔ DataGrid.cellAt b.board y x = some 0 := by
  unfold Board.empty_positions DataGrid.iter_rows
  rw [List.mem_flatMap]
  constructor
  · rintro ⟨p, hp, hmem⟩
    rw [List.mem_map] at hmem
    obtain ⟨q, hq, hpq⟩ := hmem
    rw [List.mem_filter] at hq
    obtain ⟨hqe, hq0⟩ := hq
    have hrow := List.mem_enum_iff_getElem?.mp hp
    have hcellq := List.mem_enum_iff_getElem?.mp hqe
    have hq2 : q.2 = 0 := by simpa using hq0
    have hx : q.1 = x := congrArg Prod.fst hpq
    have hy : p.1 = y := congrArg Prod.snd hpq
    rw [hy] at hrow
    rw [hx, hq2] at hcellq
    simp [DataGrid.cellAt, hrow, hcellq]
  · intro hc
    unfold DataGrid.cellAt at hc
    cases hrow : b.board.values[y]? with
    | none => rw [hrow] at hc; exact absurd hc (by simp)
    | some row =>
      rw [hrow] at hc
      refine ⟨(y, row), List.mem_enum_iff_getElem?.mpr (by simpa using hrow), ?_⟩
      rw [List.mem_map]
      refine ⟨(x, 0), ?_, rfl⟩
      rw [List.mem_filter]
      exact ⟨List.mem_enum_iff_getElem?.mpr (by simpa using hc), by simp⟩

/-- `empty_positions` is empty exactly when every cell of the board is
non-empty (the board is full). -/
theorem Board.empty_positions_eq_nil_iff (b : Board) :
    Board.empty_positions b = [] ↔
      ∀ row ∈ b.board.values, ∀ t ∈ row, t ≠ 0 := by
  rw [List.eq_nil_iff_forall_not_mem]
  constructor
  · intro h row hrow t ht ht0
    subst ht0
    obtain ⟨y, hy⟩ := List.mem_iff_getElem?.mp hrow
    obtain ⟨x, hx⟩ := List.mem_iff_getElem?.mp ht
    exact h (x, y)
      ((Board.mem_empty_positions b x y).mpr (by simp [DataGrid.cellAt, hy, hx]))
  · rintro h ⟨x, y⟩ hmem
    have hc := (Board.mem_empty_positions b x y).mp hmem
    unfold DataGrid.cellAt at hc
    cases hrow : b.board.values[y]? with
    | none => rw [hrow] at hc; exact absurd hc (by simp)
    | some row =>
      rw [hrow] at hc
      exact h row (List.getElem?_mem hrow) 0 (List.getElem?_mem hc) rfl

/-- `listChoose` (the model of `SliceRandom::choose`) returns `none` exactly
on the empty slice. -/
theorem Board.listChoose_eq_none_iff {α : Type} (l : List α) (i : Nat) :
    Board.listChoose l i = none ↔ l = [] := by
  cases l with
  | nil => simp [Board.listChoose]
  | cons a as =>
    have hlt : i % (a :: as).length < (a :: as).length :=
      Nat.mod_lt _ (by simp)
    simp only [Board.listChoose]
    rw [List.getElem?_eq_getElem hlt]
    simp

/-- Whatever `listChoose` returns is an element of the slice. -/
theorem Board.listChoose_mem {α : Type} (l : List α) (i : Nat) (a : α)
    (h : Board.listChoose l i = some a) : a ∈ l :=
  List.getElem?_mem h

/-- The value the weighted choice produces is rank 1 or rank 2. -/
theorem Board.choose_weighted_value_mem (j : Nat) :
    Board.choose_weighted_value j = 1 ∨ Board.choose_weighted_value j = 2 := by
  unfold Board.choose_weighted_value
  split_ifs <;> simp

/-- The `unwrap` in `add_random_tile` is dead code: placing a value at an
in-bounds cell succeeds, and the board becomes the board with exactly that
cell rewritten. -/
theorem Board.place_item_at_empty_position_ok (b : Board) (x y : Nat)
    (row : List TileType) (v : TileType)
    (hrow : b.board.values[y]? = some row) (hx : x < row.length) :
    Board.place_item_in_board b y x v =
      (⟨⟨b.board.values.set y (row.set x v)⟩⟩, .ok ()) := by
  unfold Board.place_item_in_board DataGrid.update_single_position
  simp [hrow, List.getElem?_eq_getElem hx]

/-- When `listChoose` picks the position `pos` from `empty_positions`,
`add_random_tile` succeeds and rewrites exactly cell
`(row pos.2, col pos.1)`, which held `0`. -/
theorem Board.add_random_tile_of_choose (b : Board) (i j : Nat) (pos : Nat × Nat)
    (hpos : Board.listChoose (Board.empty_positions b) i = some pos) :
    ∃ row, b.board.values[pos.2]? = some row ∧ row[pos.1]? = some 0 ∧
      Board.add_random_tile b i j =
        (⟨⟨b.board.values.set pos.2 (row.set pos.1 (Board.choose_weighted_value j))⟩⟩,
          .ok ()) := by
  have hmem := Board.listChoose_mem _ i pos hpos
  obtain ⟨x, y⟩ := pos
  have hc := (Board.mem_empty_positions b x y).mp hmem
  unfold DataGrid.cellAt at hc
  cases hrow : b.board.values[y]? with
  | none => rw [hrow] at hc; exact absurd hc (by simp)
  | some row =>
    rw [hrow] at hc
    refine ⟨row, rfl, hc, ?_⟩
    have hx : x < row.length := (List.getElem?_eq_some.mp hc).1
    have hplace := Board.place_item_at_empty_position_ok b x y row
      (Board.choose_weighted_value j) hrow hx
    unfold Board.add_random_tile
    rw [hpos]
    simp [hplace]

/-- On a full board `add_random_tile` fails with `AddRandomTileError` and the
board is unchanged. -/
theorem Board.add_random_tile_of_full (b : Board) (i j : Nat)
    (h : Board.empty_positions b = []) :
    Board.add_random_tile b i j = (b, .error .AddRandomTileError) := by
  unfold Board.add_random_tile
  rw [(Board.listChoose_eq_none_iff _ i).mpr h]

/-- Cells of the board after one in-bounds single-cell write: the written
cell holds the new value, every other cell is unchanged. -/
theorem Board.set_cell_spec (vs : List (List TileType)) (y x : Nat)
    (row : List TileType) (v : TileType)
    (hrow : vs[y]? = some row) (hx : x < row.length) :
    ∀ y' x',
      DataGrid.cellAt (⟨vs.set y (row.set x v)⟩ : DataGrid TileType) y' x' =
        if y' = y ∧ x' = x then some v
        else DataGrid.cellAt (⟨vs⟩ : DataGrid TileType) y' x' := by
  intro y' x'
  have hylt : y < vs.length := (List.getElem?_eq_some.mp hrow).1
  by_cases hy : y' = y
  · subst hy
    have h1 : (vs.set y' (row.set x v))[y']? = some (row.set x v) :=
      List.getElem?_set_self hylt
    by_cases hxx : x' = x
    · subst hxx
      simp [DataGrid.cellAt, h1, List.getElem?_set_self hx]
    · simp [DataGrid.cellAt, h1, List.getElem?_set_ne (fun h => hxx h.symm), hxx, hrow]
  · have h1 : (vs.set y (row.set x v))[y']? = vs[y']? :=
      List.getElem?_set_ne (fun h => hy h.symm)
    simp [DataGrid.cellAt, h1, hy]

/-- C5: `Board::add_random_tile` fails with the no-empty-cell error iff every
cell of the board is non-empty, and on that failure the board is unchanged; on
a board with exactly one empty cell it always writes the new tile — of rank 1
or 2 under the exponent encoding — into exactly that cell, leaving every other
cell unchanged. -/
theorem claim_C5_add_random_tile (b : Board) (i j x y : Nat) :
    ((Board.add_random_tile b i j).2 = .error .AddRandomTileError ↔
      Board.empty_positions b = []) ∧
    (Board.empty_positions b = [] ↔
      ∀ row ∈ b.board.values, ∀ t ∈ row, t ≠ 0) ∧
    ((Board.add_random_tile b i j).2 = .error .AddRandomTileError →
      (Board.add_random_tile b i j).1 = b) ∧
    (Board.empty_positions b = [(x, y)] →
      ∃ v, (v = 1 ∨ v = 2) ∧
        DataGrid.cellAt b.board y x = some 0 ∧
        (Board.add_random_tile b i j).2 = .ok () ∧
        DataGrid.cellAt (Board.add_random_tile b i j).1.board y x = some v ∧
        ∀ y' x', ¬(y' = y ∧ x' = x) →
          DataGrid.cellAt (Board.add_random_tile b i j).1.board y' x' =
            DataGrid.cellAt b.board y' x') := by
  have hfullcase : Board.empty_positions b = [] →
      Board.add_random_tile b i j = (b, .error .AddRandomTileError) :=
    Board.add_random_tile_of_full b i j
  have hiff : (Board.add_random_tile b i j).2 = .error .AddRandomTileError ↔
      Board.empty_positions b = [] := by
    constructor
    · intro herr
      by_contra hne
      obtain ⟨pos, hpos⟩ : ∃ pos, Board.listChoose (Board.empty_positions b) i = some pos := by
        cases hc : Board.listChoose (Board.empty_positions b) i with
        | none => exact absurd ((Board.listChoose_eq_none_iff _ i).mp hc) hne
        | some p => exact ⟨p, rfl⟩
      obtain ⟨row, _, _, heq⟩ := Board.add_random_tile_of_choose b i j pos hpos
      rw [heq] at herr
      exact absurd herr (by simp)
    · intro h
      rw [hfullcase h]
  refine ⟨hiff, Board.empty_positions_eq_nil_iff b, ?_, ?_⟩
  · intro herr
    rw [hfullcase (hiff.mp herr)]
  · intro hsing
    have hpos : Board.listChoose (Board.empty_positions b) i = some (x, y) := by
      rw [hsing]
      simp [Board.listChoose, Nat.mod_one]
    obtain ⟨row, hrow, hc, heq⟩ := Board.add_random_tile_of_choose b i j (x, y) hpos
    have hx : x < row.length := (List.getElem?_eq_some.mp hc).1
    have hcells := Board.set_cell_spec b.board.values y x row
      (Board.choose_weighted_value j) hrow hx
    refine ⟨Board.choose_weighted_value j, Board.choose_weighted_value_mem j, ?_, ?_, ?_, ?_⟩
    · simp [DataGrid.cellAt, hrow, hc]
    · rw [heq]
    · rw [heq]
      have := hcells y x
      rw [if_pos ⟨rfl, rfl⟩] at this
      exact this
    · intro y' x' hne
      rw [heq]
      have := hcells y' x'
      rw [if_neg hne] at this
      exact this

/-- Witness for C5 on the board `[[1,0],[2,3]]`, whose only empty cell is
`(x,y) = (1,0)`: insertion succeeds, writes rank 1 or 2 there, and leaves the
rest alone; the conjuncts are instantiated at draws `i = j = 0`. -/
theorem claim_C5_add_random_tile_witness :
    ((Board.add_random_tile ⟨⟨[[1, 0], [2, 3]]⟩⟩ 0 0).2 = .error .AddRandomTileError ↔
      Board.empty_positions ⟨⟨[[1, 0], [2, 3]]⟩⟩ = []) ∧
    ∃ v, (v = 1 ∨ v = 2) ∧
      DataGrid.cellAt (⟨[[1, 0], [2, 3]]⟩ : DataGrid TileType) 0 1 = some 0 ∧
      (Board.add_random_tile ⟨⟨[[1, 0], [2, 3]]⟩⟩ 0 0).2 = .ok () ∧
      DataGrid.cellAt (Board.add_random_tile ⟨⟨[[1, 0], [2, 3]]⟩⟩ 0 0).1.board 0 1 = some v ∧
      ∀ y' x', ¬(y' = 0 ∧ x' = 1) →
        DataGrid.cellAt (Board.add_random_tile ⟨⟨[[1, 0], [2, 3]]⟩⟩ 0 0).1.board y' x' =
          DataGrid.cellAt (⟨[[1, 0], [2, 3]]⟩ : DataGrid TileType) y' x' := by
  refine ⟨(claim_C5_add_random_tile ⟨⟨[[1, 0], [2, 3]]⟩⟩ 0 0 1 0).1, ?_⟩
  have h := (claim_C5_add_random_tile ⟨⟨[[1, 0], [2, 3]]⟩⟩ 0 0 1 0).2.2.2 (by decide)
  obtain ⟨v, hv, h1, h2, h3, h4⟩ := h
  exact ⟨v, hv, h1, h2, h3, h4⟩

end RandomInsertion

section Transposition

/-- `cellAt` as a bind over the two optional lookups. -/
theorem DataGrid.cellAt_eq_bind {α : Type} (g : DataGrid α) (y x : Nat) :
    DataGrid.cellAt g y x = g.values[y]?.bind (fun r => r[x]?) := by
  unfold DataGrid.cellAt
  cases g.values[y]? <;> rfl

/-- Collecting `row[x]` over rows all of length `> x` (the `get_column`
collect) succeeds and is pointwise the column. -/
theorem DataGrid.mapM_getElem_spec {α : Type} (x : Nat) :
    ∀ vs : List (List α), (∀ r ∈ vs, x < r.length) →
      ∃ col, vs.mapM (fun row => row[x]?) = some col ∧ col.length = vs.length ∧
        ∀ (y : Nat), col[y]? = vs[y]?.bind (fun r => r[x]?) := by
  intro vs
  induction vs with
  | nil =>
    intro _
    exact ⟨[], rfl, by simp, fun y => by simp⟩
  | cons r rs ih =>
    intro h
    have hr : x < r.length := h r (by simp)
    obtain ⟨col, hc, hclen, hcy⟩ := ih (fun r' hr' => h r' (List.mem_cons_of_mem r hr'))
    refine ⟨r[x] :: col, ?_, by simp [hclen], ?_⟩
    · rw [List.mapM_cons, List.getElem?_eq_getElem hr, hc]
      rfl
    · intro y
      cases y with
      | zero => simp [List.getElem?_eq_getElem hr]
      | succ n => simpa using hcy n

/-- The `get_column` collect fails as soon as one row is too short. -/
theorem DataGrid.mapM_getElem_none {α : Type} (x : Nat) :
    ∀ vs : List (List α), (∃ r ∈ vs, r.length ≤ x) →
      vs.mapM (fun row => row[x]?) = none := by
  intro vs
  induction vs with
  | nil => rintro ⟨r, hr, _⟩; simp at hr
  | cons r rs ih =>
    rintro ⟨r', hr', hlen⟩
    rcases List.mem_cons.mp hr' with h | h
    · subst h
      rw [List.mapM_cons, List.getElem?_eq_none hlen]
      rfl
    · rw [List.mapM_cons, ih ⟨r', h, hlen⟩]
      cases r[x]? <;> rfl

/-- What `transpose` produces on a rectangular grid: `width` rows, each of
length `height`; its row `x` is exactly `get_column x` (for every `x`, both
sides being `none` out of range); and cell `(x, y)` of the transpose is cell
`(y, x)` of the source. -/
theorem DataGrid.transpose_spec {α : Type} (g : DataGrid α) (hg : DataGrid.Rect g) :
    (g.transpose.values.length = g.get_width ∧
      ∀ r ∈ g.transpose.values, r.length = g.values.length) ∧
    (∀ x, g.transpose.get_row x = g.get_column x) ∧
    (∀ x y, DataGrid.cellAt g.transpose x y = DataGrid.cellAt g y x) := by
  obtain ⟨hpos, hw0, hrows⟩ := hg
  obtain ⟨v0, rest, hv⟩ : ∃ v0 rest, g.values = v0 :: rest := by
    cases hval : g.values with
    | nil => rw [hval] at hpos; simp at hpos
    | cons a l => exact ⟨a, l, rfl⟩
  have htv : g.transpose.values =
      (List.range g.get_width).map (fun i => (g.get_column i).getD []) := by
    unfold DataGrid.transpose
    rw [hv]
  have hcol : ∀ x, x < g.get_width →
      ∃ col, g.get_column x = some col ∧ col.length = g.values.length ∧
        ∀ (y : Nat), col[y]? = g.values[y]?.bind (fun r => r[x]?) := by
    intro x hx
    exact DataGrid.mapM_getElem_spec x g.values
      (fun r hr => by rw [hrows r hr]; exact hx)
  have hcolnone : ∀ x, g.get_width ≤ x → g.get_column x = none := by
    intro x hx
    exact DataGrid.mapM_getElem_none x g.values
      ⟨v0, by rw [hv]; simp, by rw [hrows v0 (by rw [hv]; simp)]; exact hx⟩
  have hrowt : ∀ x, g.transpose.values[x]? =
      if x < g.get_width then some ((g.get_column x).getD []) else none := by
    intro x
    rw [htv]
    by_cases hx : x < g.get_width
    · rw [List.getElem?_map, List.getElem?_range hx]
      simp [hx]
    · rw [List.getElem?_map, List.getElem?_eq_none (by simpa using hx)]
      simp [hx]
  refine ⟨⟨by rw [htv]; simp, ?_⟩, ?_, ?_⟩
  · intro r hr
    rw [htv] at hr
    obtain ⟨i, hi, hri⟩ := List.mem_map.mp hr
    obtain ⟨col, hc, hclen, _⟩ := hcol i (List.mem_range.mp hi)
    rw [← hri, hc]
    simpa using hclen
  · intro x
    unfold DataGrid.get_row
    rw [hrowt x]
    by_cases hx : x < g.get_width
    · obtain ⟨col, hc, _, _⟩ := hcol x hx
      rw [if_pos hx, hc]
      rfl
    · rw [if_neg hx, hcolnone x (by omega)]
  · intro x y
    rw [DataGrid.cellAt_eq_bind, DataGrid.cellAt_eq_bind, hrowt x]
    by_cases hx : x < g.get_width
    · obtain ⟨col, hc, _, hcy⟩ := hcol x hx
      rw [if_pos hx, hc]
      simpa using hcy y
    · rw [if_neg hx]
      cases hy : g.values[y]? with
      | none => rfl
      | some row =>
        have : row.length ≤ x := by
          rw [hrows row (List.getElem?_mem hy)]
          omega
        simp [List.getElem?_eq_none this]

/-- A rectangular grid's transpose is rectangular again. -/
theorem DataGrid.rect_transpose {α : Type} (g : DataGrid α) (hg : DataGrid.Rect g) :
    DataGrid.Rect g.transpose := by
  obtain ⟨⟨hlen, hrows⟩, _, _⟩ := DataGrid.transpose_spec g hg
  obtain ⟨hpos, hw0, _⟩ := hg
  have hne : g.transpose.values.length ≠ 0 := by omega
  have hwidth : g.transpose.get_width = g.values.length := by
    unfold DataGrid.get_width
    cases hval : g.transpose.values with
    | nil => rw [hval] at hne; simp at hne
    | cons a l =>
      have : a ∈ g.transpose.values := by rw [hval]; simp
      simpa using hrows a this
  refine ⟨by omega, by rw [hwidth]; omega, ?_⟩
  intro r hr
  rw [hwidth]
  exact hrows r hr

/-- Two row lists with the same shape and the same cells are equal. -/
theorem DataGrid.values_ext {α : Type} (a b : List (List α))
    (hlen : a.length = b.length)
    (hcell : ∀ (y x : Nat), a[y]?.bind (fun r => r[x]?) = b[y]?.bind (fun r => r[x]?)) :
    a = b := by
  apply List.ext_getElem?
  intro y
  by_cases hy : y < a.length
  · have hay : a[y]? = some a[y] := List.getElem?_eq_getElem hy
    have hby : b[y]? = some b[y] := List.getElem?_eq_getElem (by omega)
    rw [hay, hby]
    congr 1
    apply List.ext_getElem?
    intro x
    have := hcell y x
    rw [hay, hby] at this
    simpa using this
  · rw [List.getElem?_eq_none (by omega), List.getElem?_eq_none (by omega)]

/-- C9: for every rectangular grid, `transpose` is an involution, and row `i`
of the transpose is column `i` of the source in row order (`transpose` is a
pure function of the receiver, so the receiver is untouched by construction). -/
theorem claim_C9_transpose_involution {α : Type} (g : DataGrid α)
    (hg : DataGrid.Rect g) :
    g.transpose.transpose = g ∧ ∀ i, g.transpose.get_row i = g.get_column i := by
  obtain ⟨⟨hlen1, hrows1⟩, hrowcol1, hcells1⟩ := DataGrid.transpose_spec g hg
  have hrt := DataGrid.rect_transpose g hg
  obtain ⟨⟨hlen2, hrows2⟩, _, hcells2⟩ := DataGrid.transpose_spec g.transpose hrt
  obtain ⟨hpos, hw0, hrows⟩ := hg
  have hwidth1 : g.transpose.get_width = g.values.length := by
    unfold DataGrid.get_width
    cases hval : g.transpose.values with
    | nil => rw [hval] at hlen1; simp at hlen1 ⊢; omega
    | cons a l =>
      have : a ∈ g.transpose.values := by rw [hval]; simp
      simpa using hrows1 a this
  refine ⟨?_, hrowcol1⟩
  have hv : g.transpose.transpose.values = g.values := by
    apply DataGrid.values_ext
    · rw [hlen2, hwidth1]
    · intro y x
      rw [← DataGrid.cellAt_eq_bind, ← DataGrid.cellAt_eq_bind, hcells2 y x,
        hcells1 x y]
  exact congrArg DataGrid.mk hv

/-- Witness for C9 on the 2×3 grid `[[1,2,3],[4,5,6]]`. -/
theorem claim_C9_transpose_involution_witness :
    (DataGrid.mk [[1, 2, 3], [4, 5, 6]]).transpose.transpose =
      (⟨[[1, 2, 3], [4, 5, 6]]⟩ : DataGrid Nat) ∧
    ∀ i, (DataGrid.mk [[1, 2, 3], [4, 5, 6]]).transpose.get_row i =
      (⟨[[1, 2, 3], [4, 5, 6]]⟩ : DataGrid Nat).get_column i :=
  claim_C9_transpose_involution (⟨[[1, 2, 3], [4, 5, 6]]⟩ : DataGrid Nat) (by decide)

end Transposition

section MergeLoops

/-- After the first `k` iterations of the row loop, the first `k` rows are
transformed and the rest are untouched; no `unwrap` has fired. -/
theorem Board.rowLoop_inv (f : List TileType → List TileType)
    (hf : ∀ l, (f l).length = l.length) (g : DataGrid TileType)
    (hg : DataGrid.Rect g) :
    ∀ k, k ≤ g.values.length →
      (List.range k).foldlM (Board.rowStep f) g =
        some ⟨(g.values.take k).map f ++ g.values.drop k⟩ := by
  obtain ⟨hpos, hw0, hrows⟩ := hg
  intro k
  induction k with
  | zero =>
    intro _
    simp
  | succ k ih =>
    intro hk1
    have hk : k < g.values.length := by omega
    rw [List.range_succ, List.foldlM_append, ih (by omega)]
    set mid : DataGrid TileType := ⟨(g.values.take k).map f ++ g.values.drop k⟩
      with hmid
    have htake_len : ((g.values.take k).map f).length = k := by
      rw [List.length_map, List.length_take]
      omega
    have hrowk : mid.values[k]? = some g.values[k] := by
      rw [hmid]
      show ((g.values.take k).map f ++ g.values.drop k)[k]? = _
      rw [List.getElem?_append_right (by omega), htake_len, Nat.sub_self,
        List.getElem?_drop, Nat.add_zero]
      exact List.getElem?_eq_getElem hk
    have hwidth : mid.get_width = g.get_width := by
      unfold DataGrid.get_width
      rw [List.headD_eq_head?, List.headD_eq_head?, List.head?_eq_getElem?,
        List.head?_eq_getElem?]
      cases k with
      | zero =>
        rw [hmid]
        simp
      | succ n =>
        have h0 : mid.values[0]? = some (f g.values[0]) := by
          rw [hmid]
          show ((g.values.take (n + 1)).map f ++ g.values.drop (n + 1))[0]? = _
          rw [List.getElem?_append, if_pos (by rw [htake_len]; omega),
            List.getElem?_map, List.getElem?_take, if_pos (by omega),
            List.getElem?_eq_getElem (by omega)]
          rfl
        rw [h0, List.getElem?_eq_getElem (by omega)]
        simp only [Option.getD_some]
        rw [hf]
    have hlen2 : (f g.values[k]).length = mid.get_width := by
      rw [hwidth, hf]
      exact hrows g.values[k] (List.getElem_mem hk)
    have hur : mid.update_row k (f g.values[k]) =
        (⟨mid.values.set k (f g.values[k])⟩, .ok ()) := by
      unfold DataGrid.update_row
      rw [if_neg (by omega), hrowk]
    have hset : mid.values.set k (f g.values[k]) =
        (g.values.take (k + 1)).map f ++ g.values.drop (k + 1) := by
      rw [hmid]
      show ((g.values.take k).map f ++ g.values.drop k).set k (f g.values[k]) = _
      rw [List.set_append, if_neg (by omega), htake_len, Nat.sub_self]
      rw [List.drop_eq_getElem_cons hk, List.set_cons_zero]
      rw [List.take_succ, List.getElem?_eq_getElem hk]
      rw [List.map_append]
      simp only [Option.toList_some, List.map_cons, List.map_nil,
        List.append_assoc, List.singleton_append, List.nil_append]
    have hstep : Board.rowStep f mid k =
        some ⟨(g.values.take (k + 1)).map f ++ g.values.drop (k + 1)⟩ := by
      unfold Board.rowStep DataGrid.get_row
      rw [hrowk]
      simp only [hur, hset]
    simp only [List.foldlM_cons, List.foldlM_nil]
    show (Board.rowStep f mid k >>= fun b => pure b) = _
    rw [hstep]
    rfl

/-- On a rectangular grid the shared row loop of `merge_left`/`merge_right`
panics on no `unwrap` and maps the per-row transform over the rows. -/
theorem Board.rowLoop_eq (f : List TileType → List TileType)
    (hf : ∀ l, (f l).length = l.length) (g : DataGrid TileType)
    (hg : DataGrid.Rect g) :
    Board.rowLoop f g = some ⟨g.values.map f⟩ := by
  unfold Board.rowLoop DataGrid.get_height
  rw [Board.rowLoop_inv f hf g hg g.values.length le_rfl]
  simp

/-- Entry `y` of column `x` (as read by `colAt`) is cell `(y, x)`, provided
every row reaches index `x`. -/
theorem Board.colAt_getElem (vs : List (List TileType)) (x : Nat)
    (hW : ∀ r ∈ vs, x < r.length) (y : Nat) :
    (Board.colAt vs x)[y]? = vs[y]?.bind (fun r => r[x]?) := by
  unfold Board.colAt
  rw [List.getElem?_map]
  cases hy : vs[y]? with
  | none => rfl
  | some row =>
    have hx : x < row.length := hW row (List.getElem?_mem hy)
    simp only [Option.map_some', Option.some_bind, List.getD_eq_getElem?_getD,
      List.getElem?_eq_getElem hx, Option.getD_some]

/-- After the first `k` iterations of the column loop, the first `k` columns
are transformed (cellwise) and the rest are untouched; no `unwrap` has
fired, the number of rows is unchanged and every row still has the original
width. -/
theorem Board.colLoop_inv (f : List TileType → List TileType)
    (hf : ∀ l, (f l).length = l.length) (g : DataGrid TileType)
    (hg : DataGrid.Rect g) :
    ∀ k, k ≤ g.get_width →
      ∃ cur, (List.range k).foldlM (Board.colStep f) g = some cur ∧
        cur.values.length = g.values.length ∧
        (∀ (y : Nat) (r : List TileType),
          cur.values[y]? = some r → r.length = g.get_width) ∧
        (∀ (y x : Nat), cur.values[y]?.bind (fun r => r[x]?) =
          if x < k then (f (Board.colAt g.values x))[y]?
          else g.values[y]?.bind (fun r => r[x]?)) := by
  obtain ⟨hpos, hw0, hrows⟩ := hg
  intro k
  induction k with
  | zero =>
    intro _
    refine ⟨g, by simp, rfl, ?_, ?_⟩
    · intro y r h
      exact hrows r (List.getElem?_mem h)
    · intro y x
      rw [if_neg (by omega)]
  | succ k ih =>
    intro hk1
    have hk : k < g.get_width := by omega
    obtain ⟨cur, hfold, hlen, hrows', hcells⟩ := ih (by omega)
    have hin : ∀ r ∈ cur.values, k < r.length := by
      intro r hr
      obtain ⟨y, hy⟩ := List.mem_iff_getElem?.mp hr
      rw [hrows' y r hy]
      exact hk
    obtain ⟨col, hcol, hcollen, hcoly⟩ := DataGrid.mapM_getElem_spec k cur.values hin
    have hcolval : col = Board.colAt g.values k := by
      apply List.ext_getElem?
      intro y
      rw [hcoly y, hcells y k, if_neg (by omega),
        Board.colAt_getElem g.values k (fun r hr => by rw [hrows r hr]; exact hk) y]
    have hflen : (f col).length = cur.values.length := by
      rw [hf, hcollen]
    have hscc : DataGrid.setColumnCells cur.values (f col) k =
        (List.zipWith (fun row v => row.set k v) cur.values (f col) ++
          cur.values.drop (f col).length, none) :=
      DataGrid.setColumnCells_ok k cur.values (f col) hin
    have hdrop : cur.values.drop (f col).length = [] := by
      rw [hflen, List.drop_length]
    rw [hdrop, List.append_nil] at hscc
    have hupd : cur.update_column k (f col) =
        (⟨List.zipWith (fun row v => row.set k v) cur.values (f col)⟩, .ok ()) := by
      unfold DataGrid.update_column
      rw [if_neg (by omega), hscc]
    have hgc : cur.get_column k = some col := hcol
    have hstep : Board.colStep f cur k =
        some ⟨List.zipWith (fun row v => row.set k v) cur.values (f col)⟩ := by
      unfold Board.colStep
      rw [hgc]
      show (match (cur.update_column k (f col)).2 with
            | .ok _ => some (cur.update_column k (f col)).1
            | .error _ => none) = _
      rw [hupd]
    refine ⟨⟨List.zipWith (fun row v => row.set k v) cur.values (f col)⟩, ?_, ?_, ?_, ?_⟩
    · rw [List.range_succ, List.foldlM_append, hfold]
      simp only [List.foldlM_cons, List.foldlM_nil]
      show (Board.colStep f cur k >>= fun b => pure b) = _
      rw [hstep]
      rfl
    · show (List.zipWith _ _ _).length = _
      rw [List.length_zipWith, hflen]
      omega
    · intro y r h
      rw [List.getElem?_zipWith] at h
      cases hcy : cur.values[y]? with
      | none => rw [hcy] at h; simp at h
      | some ry =>
        cases hfy : (f col)[y]? with
        | none => rw [hcy, hfy] at h; simp at h
        | some vy =>
          rw [hcy, hfy] at h
          simp only [Option.some.injEq] at h
          rw [← h, List.length_set]
          exact hrows' y ry hcy
    · intro y x
      show (List.zipWith (fun row v => row.set k v) cur.values (f col))[y]?.bind
          (fun r => r[x]?) = _
      rw [List.getElem?_zipWith]
      by_cases hy : y < cur.values.length
      · have hcy : cur.values[y]? = some cur.values[y] := List.getElem?_eq_getElem hy
        have hfy : (f col)[y]? = some (f col)[y] :=
          List.getElem?_eq_getElem (by omega)
        rw [hcy, hfy]
        simp only [Option.some_bind]
        by_cases hx : x = k
        · subst hx
          have hWy : x < cur.values[y].length := by
            rw [hrows' y cur.values[y] hcy]
            exact hk
          rw [List.getElem?_set_self hWy, if_pos (by omega), ← hcolval, hfy]
        · rw [List.getElem?_set_ne (fun h => hx h.symm)]
          have hold := hcells y x
          rw [hcy, Option.some_bind] at hold
          by_cases hxk : x < k
          · rw [hold, if_pos hxk, if_pos (by omega)]
          · rw [hold, if_neg hxk, if_neg (by omega)]
      · have hcy : cur.values[y]? = none := List.getElem?_eq_none (by omega)
        rw [hcy]
        show ((none : Option (List TileType)).bind fun r => r[x]?) = _
        rw [Option.none_bind]
        have hgy : g.values[y]? = none := List.getElem?_eq_none (by omega)
        by_cases hxk : x < k + 1
        · rw [if_pos hxk]
          have hfl : (f (Board.colAt g.values x)).length ≤ y := by
            rw [hf]
            unfold Board.colAt
            rw [List.length_map]
            omega
          rw [List.getElem?_eq_none hfl]
        · rw [if_neg hxk, hgy, Option.none_bind]

/-- On a rectangular grid the shared column loop of `merge_up`/`merge_down`
panics on no `unwrap`, keeps the grid's shape, and replaces each column `x`
by `f` of that column. -/
theorem Board.colLoop_spec (f : List TileType → List TileType)
    (hf : ∀ l, (f l).length = l.length) (g : DataGrid TileType)
    (hg : DataGrid.Rect g) :
    ∃ res, Board.colLoop f g = some res ∧
      res.values.length = g.values.length ∧
      (∀ (y : Nat) (r : List TileType),
        res.values[y]? = some r → r.length = g.get_width) ∧
      (∀ (y x : Nat), res.values[y]?.bind (fun r => r[x]?) =
        if x < g.get_width then (f (Board.colAt g.values x))[y]?
        else g.values[y]?.bind (fun r => r[x]?)) :=
  Board.colLoop_inv f hf g hg g.get_width le_rfl

/-- `Board::merge_left` on a rectangular board: each row replaced by its
merge. -/
theorem Board.merge_left_eq (b : Board) (hg : DataGrid.Rect b.board) :
    Board.merge_left b = some ⟨⟨b.board.values.map Board.merge_tiles⟩⟩ := by
  unfold Board.merge_left
  rw [Board.rowLoop_eq Board.merge_tiles Board.merge_tiles_length b.board hg]
  rfl

/-- `Board::merge_right` on a rectangular board: each row replaced by
reverse–merge–reverse. -/
theorem Board.merge_right_eq (b : Board) (hg : DataGrid.Rect b.board) :
    Board.merge_right b =
      some ⟨⟨b.board.values.map
        (fun r => (Board.merge_tiles r.reverse).reverse)⟩⟩ := by
  unfold Board.merge_right
  rw [Board.rowLoop_eq _
    (fun l => by rw [List.length_reverse, Board.merge_tiles_length, List.length_reverse])
    b.board hg]
  rfl

/-- `Board::merge_up` on a rectangular board: same shape, and cellwise each
column `x` replaced by its merge. -/
theorem Board.merge_up_spec (b : Board) (hg : DataGrid.Rect b.board) :
    ∃ res : Board, Board.merge_up b = some res ∧
      res.board.values.length = b.board.values.length ∧
      (∀ (y : Nat) (r : List TileType),
        res.board.values[y]? = some r → r.length = b.board.get_width) ∧
      (∀ (y x : Nat), res.board.values[y]?.bind (fun r => r[x]?) =
        if x < b.board.get_width
        then (Board.merge_tiles (Board.colAt b.board.values x))[y]?
        else b.board.values[y]?.bind (fun r => r[x]?)) := by
  obtain ⟨res, h1, h2, h3, h4⟩ :=
    Board.colLoop_spec Board.merge_tiles Board.merge_tiles_length b.board hg
  refine ⟨⟨res⟩, ?_, h2, h3, h4⟩
  unfold Board.merge_up
  rw [h1]
  rfl

/-- `Board::merge_down` on a rectangular board: same shape, and cellwise each
column `x` replaced by reverse–merge–reverse. -/
theorem Board.merge_down_spec (b : Board) (hg : DataGrid.Rect b.board) :
    ∃ res : Board, Board.merge_down b = some res ∧
      res.board.values.length = b.board.values.length ∧
      (∀ (y : Nat) (r : List TileType),
        res.board.values[y]? = some r → r.length = b.board.get_width) ∧
      (∀ (y x : Nat), res.board.values[y]?.bind (fun r => r[x]?) =
        if x < b.board.get_width
        then ((Board.merge_tiles (Board.colAt b.board.values x).reverse).reverse)[y]?
        else b.board.values[y]?.bind (fun r => r[x]?)) := by
  obtain ⟨res, h1, h2, h3, h4⟩ :=
    Board.colLoop_spec (fun c => (Board.merge_tiles c.reverse).reverse)
      (fun l => by rw [List.length_reverse, Board.merge_tiles_length, List.length_reverse])
      b.board hg
  refine ⟨⟨res⟩, ?_, h2, h3, h4⟩
  unfold Board.merge_down
  rw [h1]
  rfl

end MergeLoops

section CollapsedLines

/-- Unfolding `merge_emit` on a non-empty line. -/
theorem Board.merge_emit_cons (t0 : TileType) (rest : List TileType) :
    Board.merge_emit (t0 :: rest) =
      (rest.foldl Board.mergeStep (t0, [])).2 ++
        [(rest.foldl Board.mergeStep (t0, [])).1] := rfl

/-- Unfolding `merge_tiles` on a non-empty line. -/
theorem Board.merge_tiles_cons (t0 : TileType) (rest : List TileType) :
    Board.merge_tiles (t0 :: rest) =
      Board.merge_emit (t0 :: rest) ++
        List.replicate
          ((t0 :: rest).length - (Board.merge_emit (t0 :: rest)).length) 0 := rfl

/-- Empty cells are skipped by the scan. -/
theorem Board.foldl_mergeStep_zeros (k : Nat) (s : TileType × List TileType) :
    (List.replicate k 0).foldl Board.mergeStep s = s := by
  induction k with
  | zero => rfl
  | succ n ih =>
    rw [List.replicate_succ, List.foldl_cons,
      show Board.mergeStep s 0 = s by simp [Board.mergeStep]]
    exact ih

/-- Scanning a run of non-empty pairwise-distinct-adjacent tiles (followed by
empties) just re-emits the run: the carry walks along it and nothing merges. -/
theorem Board.foldl_mergeStep_collapsed :
    ∀ (nz : List TileType) (last : TileType) (res : List TileType) (k : Nat),
      last ≠ 0 → (∀ x ∈ nz, x ≠ 0) → Board.chainNeqB (last :: nz) = true →
      ∃ l' r',
        (nz ++ List.replicate k 0).foldl Board.mergeStep (last, res) = (l', r') ∧
        r' ++ [l'] = res ++ last :: nz := by
  intro nz
  induction nz with
  | nil =>
    intro last res k _ _ _
    exact ⟨last, res, by rw [List.nil_append, Board.foldl_mergeStep_zeros], rfl⟩
  | cons v vs ih =>
    intro last res k hl hnz hchain
    have hch : (last != v) = true ∧ Board.chainNeqB (v :: vs) = true := by
      simpa [Board.chainNeqB] using hchain
    have hlv : last ≠ v := by simpa using hch.1
    have hv0 : v ≠ 0 := hnz v (by simp)
    have hstep : Board.mergeStep (last, res) v = (v, res ++ [last]) := by
      unfold Board.mergeStep
      rw [if_neg hv0, if_neg (show ¬ v = (last, res).1 from fun h => hlv h.symm),
        if_pos (show (last, res).1 ≠ 0 from hl)]
    rw [List.cons_append, List.foldl_cons, hstep]
    obtain ⟨l', r', hfold, heq⟩ :=
      ih v (res ++ [last]) k hv0 (fun x hx => hnz x (by simp [hx])) hch.2
    refine ⟨l', r', hfold, ?_⟩
    rw [heq, List.append_assoc]
    simp

/-- A fully collapsed line is a fixed point of `merge_tiles`: nothing can
merge and nothing can move. -/
theorem Board.merge_tiles_of_collapsed (xs : List TileType)
    (h : Board.isCollapsed xs = true) : Board.merge_tiles xs = xs := by
  unfold Board.isCollapsed at h
  rw [Bool.and_eq_true] at h
  obtain ⟨hdrop, hchain⟩ := h
  have hzall : ∀ t ∈ xs.dropWhile (fun t => t != 0), t = 0 := by
    intro t ht
    have := List.all_eq_true.mp hdrop t ht
    simpa using this
  have hzrep : xs.dropWhile (fun t => t != 0) =
      List.replicate (xs.dropWhile (fun t => t != 0)).length 0 :=
    List.eq_replicate_of_mem hzall
  have hxs : xs = xs.takeWhile (fun t => t != 0) ++
      List.replicate (xs.dropWhile (fun t => t != 0)).length 0 := by
    rw [← hzrep, List.takeWhile_append_dropWhile]
  have hnz0 : ∀ x ∈ xs.takeWhile (fun t => t != 0), x ≠ 0 := by
    intro x hx
    have := List.mem_takeWhile_imp hx
    simpa using this
  cases hnzv : xs.takeWhile (fun t => t != 0) with
  | nil =>
    rw [hnzv] at hxs
    rw [List.nil_append] at hxs
    rw [hxs]
    cases hk : (xs.dropWhile (fun t => t != 0)).length with
    | zero => rfl
    | succ n =>
      rw [List.replicate_succ]
      have hemit2 : Board.merge_emit (0 :: List.replicate n 0) = [0] := by
        rw [Board.merge_emit_cons, Board.foldl_mergeStep_zeros]
        rfl
      rw [Board.merge_tiles_cons, hemit2]
      simp
  | cons n0 ns =>
    rw [hnzv] at hxs hnz0
    rw [hnzv] at hchain
    have h00 : n0 ≠ 0 := hnz0 n0 (by simp)
    obtain ⟨l', r', hfold, hemit⟩ :=
      Board.foldl_mergeStep_collapsed ns n0 []
        (xs.dropWhile (fun t => t != 0)).length h00
        (fun x hx => hnz0 x (by simp [hx])) hchain
    rw [List.nil_append] at hemit
    have hemit2 : Board.merge_emit
        (n0 :: (ns ++ List.replicate (xs.dropWhile (fun t => t != 0)).length 0)) =
        n0 :: ns := by
      rw [Board.merge_emit_cons, hfold]
      exact hemit
    rw [List.cons_append] at hxs
    rw [hxs, Board.merge_tiles_cons, hemit2]
    have hcount :
        (n0 :: (ns ++ List.replicate (xs.dropWhile (fun t => t != 0)).length 0)).length -
          (n0 :: ns).length = (xs.dropWhile (fun t => t != 0)).length := by
      simp only [List.length_cons, List.length_append, List.length_replicate]
      omega
    rw [hcount]
    simp

end CollapsedLines

section MergeIdempotence

/-- C3 counterexample: on the all-2s 4×4 board (cf. the `merge_up_full_board`
unit test), applying `merge_up` twice is not the same as applying it once —
the first pass leaves `[3,3,0,0]` columns, which a second pass merges again
into `[4,0,0,0]`. -/
theorem claim_C3_merge_not_idempotent :
    (Board.merge_up ⟨⟨[[2, 2, 2, 2], [2, 2, 2, 2], [2, 2, 2, 2], [2, 2, 2, 2]]⟩⟩).bind
        Board.merge_up ≠
      Board.merge_up ⟨⟨[[2, 2, 2, 2], [2, 2, 2, 2], [2, 2, 2, 2], [2, 2, 2, 2]]⟩⟩ := by
  decide

/-- C3 (amended): a directional merge is idempotent on the boards it cannot
change — those whose lines along the merge direction are already fully
collapsed (non-empty tiles at the front, no two adjacent equal, then
empties); on such boards the merge is the identity, so a second application
changes nothing.  (On general boards a second application can differ, see the
counterexample.) -/
theorem claim_C3_merge_idempotent_on_collapsed (b : Board)
    (hg : DataGrid.Rect b.board) :
    ((∀ r ∈ b.board.values, Board.isCollapsed r = true) →
      Board.merge_left b = some b ∧
      (Board.merge_left b).bind Board.merge_left = Board.merge_left b) ∧
    ((∀ r ∈ b.board.values, Board.isCollapsed r.reverse = true) →
      Board.merge_right b = some b ∧
      (Board.merge_right b).bind Board.merge_right = Board.merge_right b) ∧
    ((∀ x, x < b.board.get_width →
        Board.isCollapsed (Board.colAt b.board.values x) = true) →
      Board.merge_up b = some b ∧
      (Board.merge_up b).bind Board.merge_up = Board.merge_up b) ∧
    ((∀ x, x < b.board.get_width →
        Board.isCollapsed (Board.colAt b.board.values x).reverse = true) →
      Board.merge_down b = some b ∧
      (Board.merge_down b).bind Board.merge_down = Board.merge_down b) := by
  have hrowsW := hg.2.2
  refine ⟨?_, ?_, ?_, ?_⟩
  · intro h
    have h1 : Board.merge_left b = some b := by
      rw [Board.merge_left_eq b hg]
      have hmap : b.board.values.map Board.merge_tiles = b.board.values := by
        conv_rhs => rw [← List.map_id b.board.values]
        exact List.map_congr_left
          (fun a ha => Board.merge_tiles_of_collapsed a (h a ha))
      rw [hmap]
    exact ⟨h1, by rw [h1, Option.some_bind, h1]⟩
  · intro h
    have h1 : Board.merge_right b = some b := by
      rw [Board.merge_right_eq b hg]
      have hmap : b.board.values.map
          (fun r => (Board.merge_tiles r.reverse).reverse) = b.board.values := by
        conv_rhs => rw [← List.map_id b.board.values]
        refine List.map_congr_left (fun a ha => ?_)
        rw [Board.merge_tiles_of_collapsed a.reverse (h a ha), List.reverse_reverse]
        rfl
      rw [hmap]
    exact ⟨h1, by rw [h1, Option.some_bind, h1]⟩
  · intro h
    obtain ⟨res, h1, h2, h3, h4⟩ := Board.merge_up_spec b hg
    have hres : res = b := by
      have hv : res.board.values = b.board.values := by
        apply DataGrid.values_ext _ _ h2
        intro y x
        rw [h4 y x]
        by_cases hx : x < b.board.get_width
        · rw [if_pos hx, Board.merge_tiles_of_collapsed _ (h x hx),
            Board.colAt_getElem b.board.values x
              (fun r hr => by rw [hrowsW r hr]; exact hx) y]
        · rw [if_neg hx]
      exact congrArg Board.mk (congrArg DataGrid.mk hv)
    rw [hres] at h1
    exact ⟨h1, by rw [h1, Option.some_bind, h1]⟩
  · intro h
    obtain ⟨res, h1, h2, h3, h4⟩ := Board.merge_down_spec b hg
    have hres : res = b := by
      have hv : res.board.values = b.board.values := by
        apply DataGrid.values_ext _ _ h2
        intro y x
        rw [h4 y x]
        by_cases hx : x < b.board.get_width
        · rw [if_pos hx, Board.merge_tiles_of_collapsed _ (h x hx),
            List.reverse_reverse,
            Board.colAt_getElem b.board.values x
              (fun r hr => by rw [hrowsW r hr]; exact hx) y]
        · rw [if_neg hx]
      exact congrArg Board.mk (congrArg DataGrid.mk hv)
    rw [hres] at h1
    exact ⟨h1, by rw [h1, Option.some_bind, h1]⟩

/-- Witness for the amended C3 on the fully collapsed board `[[2,3],[3,2]]`:
all four directional merges leave it unchanged, so twice equals once. -/
theorem claim_C3_merge_idempotent_on_collapsed_witness :
    (Board.merge_left ⟨⟨[[2, 3], [3, 2]]⟩⟩ = some ⟨⟨[[2, 3], [3, 2]]⟩⟩ ∧
      (Board.merge_left ⟨⟨[[2, 3], [3, 2]]⟩⟩).bind Board.merge_left =
        Board.merge_left ⟨⟨[[2, 3], [3, 2]]⟩⟩) ∧
    (Board.merge_right ⟨⟨[[2, 3], [3, 2]]⟩⟩ = some ⟨⟨[[2, 3], [3, 2]]⟩⟩ ∧
      (Board.merge_right ⟨⟨[[2, 3], [3, 2]]⟩⟩).bind Board.merge_right =
        Board.merge_right ⟨⟨[[2, 3], [3, 2]]⟩⟩) ∧
    (Board.merge_up ⟨⟨[[2, 3], [3, 2]]⟩⟩ = some ⟨⟨[[2, 3], [3, 2]]⟩⟩ ∧
      (Board.merge_up ⟨⟨[[2, 3], [3, 2]]⟩⟩).bind Board.merge_up =
        Board.merge_up ⟨⟨[[2, 3], [3, 2]]⟩⟩) ∧
    (Board.merge_down ⟨⟨[[2, 3], [3, 2]]⟩⟩ = some ⟨⟨[[2, 3], [3, 2]]⟩⟩ ∧
      (Board.merge_down ⟨⟨[[2, 3], [3, 2]]⟩⟩).bind Board.merge_down =
        Board.merge_down ⟨⟨[[2, 3], [3, 2]]⟩⟩) :=
  ⟨(claim_C3_merge_idempotent_on_collapsed ⟨⟨[[2, 3], [3, 2]]⟩⟩ (by decide)).1
      (by decide),
   (claim_C3_merge_idempotent_on_collapsed ⟨⟨[[2, 3], [3, 2]]⟩⟩ (by decide)).2.1
      (by decide),
   (claim_C3_merge_idempotent_on_collapsed ⟨⟨[[2, 3], [3, 2]]⟩⟩ (by decide)).2.2.1
      (by decide),
   (claim_C3_merge_idempotent_on_collapsed ⟨⟨[[2, 3], [3, 2]]⟩⟩ (by decide)).2.2.2
      (by decide)⟩

end MergeIdempotence

section MoveTriggersSpawn

/-- Unfolding the shared swipe body once the merge has produced a board. -/
theorem Game.applySwipe_some (g : Game) (merged : Board) (i j : Nat) :
    Game.applySwipe g (some merged) i j =
      if merged ≠ g.board then
        match (Board.add_random_tile merged i j).2 with
        | .ok _ => some (.ok { g with board := (Board.add_random_tile merged i j).1 })
        | .error _ => some (.error .AddRandomTileError)
      else some (.ok { g with board := merged }) := rfl

/-- Behaviour of the swipe body: no board change → no insertion and the state
comes back unchanged; board change with no empty cell → the insertion error
propagates; board change with an empty cell → exactly one previously-empty
cell becomes a non-empty tile, all other cells keeping their post-merge
values. -/
theorem Game.applySwipe_spec (g : Game) (merged : Board) (i j : Nat) :
    (merged = g.board → Game.applySwipe g (some merged) i j = some (.ok g)) ∧
    (merged ≠ g.board → Board.empty_positions merged = [] →
      Game.applySwipe g (some merged) i j = some (.error .AddRandomTileError)) ∧
    (merged ≠ g.board → Board.empty_positions merged ≠ [] →
      ∃ x y v, DataGrid.cellAt merged.board y x = some 0 ∧ v ≠ 0 ∧
        Game.applySwipe g (some merged) i j =
          some (.ok { g with board := (Board.add_random_tile merged i j).1 }) ∧
        DataGrid.cellAt (Board.add_random_tile merged i j).1.board y x = some v ∧
        (∀ y' x', ¬(y' = y ∧ x' = x) →
          DataGrid.cellAt (Board.add_random_tile merged i j).1.board y' x' =
            DataGrid.cellAt merged.board y' x')) := by
  refine ⟨?_, ?_, ?_⟩
  · intro heq
    rw [Game.applySwipe_some, if_neg (not_not_intro heq), heq]
  · intro hne hfull
    rw [Game.applySwipe_some, if_pos hne,
      Board.add_random_tile_of_full merged i j hfull]
  · intro hne hnonempty
    obtain ⟨pos, hpos⟩ :
        ∃ pos, Board.listChoose (Board.empty_positions merged) i = some pos := by
      cases hc : Board.listChoose (Board.empty_positions merged) i with
      | none => exact absurd ((Board.listChoose_eq_none_iff _ i).mp hc) hnonempty
      | some p => exact ⟨p, rfl⟩
    obtain ⟨row, hrow, hc0, heq⟩ := Board.add_random_tile_of_choose merged i j pos hpos
    have hx : pos.1 < row.length := (List.getElem?_eq_some.mp hc0).1
    have hcells := Board.set_cell_spec merged.board.values pos.2 pos.1 row
      (Board.choose_weighted_value j) hrow hx
    refine ⟨pos.1, pos.2, Board.choose_weighted_value j, ?_, ?_, ?_, ?_, ?_⟩
    · simp [DataGrid.cellAt, hrow, hc0]
    · rcases Board.choose_weighted_value_mem j with h | h <;> rw [h] <;> decide
    · rw [Game.applySwipe_some, if_pos hne, heq]
    · rw [heq]
      have := hcells pos.2 pos.1
      rw [if_pos ⟨rfl, rfl⟩] at this
      exact this
    · intro y' x' hnexy
      rw [heq]
      have := hcells y' x'
      rw [if_neg hnexy] at this
      exact this

/-- C4: for every game state with a (rectangular, as always constructed)
board and every directional move, `Game::handle_event` compares the board
before and after the merge by structural equality; an unchanged board means
no new tile and the state returned identical to the input; a changed board
means exactly one previously-empty cell becomes a non-empty tile with all
other cells keeping their post-merge values — assuming an empty cell remains —
and with no empty cell left the insertion failure propagates as
`GameError::AddRandomTileError` rather than being ignored. -/
theorem claim_C4_handle_event_spawn (g : Game) (e : GameEvent) (i j : Nat)
    (m : Board → Option Board)
    (hg : DataGrid.Rect g.board.board)
    (he : (e = .SwipeUp ∧ m = Board.merge_up) ∨
          (e = .SwipeDown ∧ m = Board.merge_down) ∨
          (e = .SwipeLeft ∧ m = Board.merge_left) ∨
          (e = .SwipeRight ∧ m = Board.merge_right)) :
    ∃ merged, m g.board = some merged ∧
      (merged = g.board → Game.handle_event g e i j = some (.ok g)) ∧
      (merged ≠ g.board → Board.empty_positions merged = [] →
        Game.handle_event g e i j = some (.error .AddRandomTileError)) ∧
      (merged ≠ g.board → Board.empty_positions merged ≠ [] →
        ∃ x y v, DataGrid.cellAt merged.board y x = some 0 ∧ v ≠ 0 ∧
          Game.handle_event g e i j =
            some (.ok { g with board := (Board.add_random_tile merged i j).1 }) ∧
          DataGrid.cellAt (Board.add_random_tile merged i j).1.board y x = some v ∧
          (∀ y' x', ¬(y' = y ∧ x' = x) →
            DataGrid.cellAt (Board.add_random_tile merged i j).1.board y' x' =
              DataGrid.cellAt merged.board y' x')) := by
  have main : ∀ merged, m g.board = some merged →
      Game.handle_event g e i j = Game.applySwipe g (some merged) i j →
      ∃ merged', m g.board = some merged' ∧
      (merged' = g.board → Game.handle_event g e i j = some (.ok g)) ∧
      (merged' ≠ g.board → Board.empty_positions merged' = [] →
        Game.handle_event g e i j = some (.error .AddRandomTileError)) ∧
      (merged' ≠ g.board → Board.empty_positions merged' ≠ [] →
        ∃ x y v, DataGrid.cellAt merged'.board y x = some 0 ∧ v ≠ 0 ∧
          Game.handle_event g e i j =
            some (.ok { g with board := (Board.add_random_tile merged' i j).1 }) ∧
          DataGrid.cellAt (Board.add_random_tile merged' i j).1.board y x = some v ∧
          (∀ y' x', ¬(y' = y ∧ x' = x) →
            DataGrid.cellAt (Board.add_random_tile merged' i j).1.board y' x' =
              DataGrid.cellAt merged'.board y' x')) := by
    intro merged hm hrun
    obtain ⟨h1, h2, h3⟩ := Game.applySwipe_spec g merged i j
    exact ⟨merged, hm,
      fun h => by rw [hrun]; exact h1 h,
      fun h h' => by rw [hrun]; exact h2 h h',
      fun h h' => by rw [hrun] at *; exact h3 h h'⟩
  rcases he with ⟨he, hmm⟩ | ⟨he, hmm⟩ | ⟨he, hmm⟩ | ⟨he, hmm⟩ <;> subst he <;> subst hmm
  · obtain ⟨merged, hm, _⟩ := Board.merge_up_spec g.board hg
    exact main merged hm (by
      show Game.applySwipe g (Board.merge_up g.board) i j = _
      rw [hm])
  · obtain ⟨merged, hm, _⟩ := Board.merge_down_spec g.board hg
    exact main merged hm (by
      show Game.applySwipe g (Board.merge_down g.board) i j = _
      rw [hm])
  · have hm := Board.merge_left_eq g.board hg
    exact main _ hm (by
      show Game.applySwipe g (Board.merge_left g.board) i j = _
      rw [hm])
  · have hm := Board.merge_right_eq g.board hg
    exact main _ hm (by
      show Game.applySwipe g (Board.merge_right g.board) i j = _
      rw [hm])

/-- Witness for C4: the game with board `[[2,2],[0,0]]` and a left swipe; the
merge changes the board to `[[3,0],[0,0]]`, an empty cell remains, so exactly
one new non-empty tile is inserted on top of the merged board. -/
theorem claim_C4_handle_event_spawn_witness :
    ∃ merged,
      Board.merge_left (⟨⟨[[2, 2], [0, 0]]⟩⟩ : Board) = some merged ∧
      (merged = (⟨⟨[[2, 2], [0, 0]]⟩⟩ : Board) →
        Game.handle_event ⟨⟨⟨[[2, 2], [0, 0]]⟩⟩, 0, false, none⟩ .SwipeLeft 0 0 =
          some (.ok ⟨⟨⟨[[2, 2], [0, 0]]⟩⟩, 0, false, none⟩)) ∧
      (merged ≠ (⟨⟨[[2, 2], [0, 0]]⟩⟩ : Board) → Board.empty_positions merged = [] →
        Game.handle_event ⟨⟨⟨[[2, 2], [0, 0]]⟩⟩, 0, false, none⟩ .SwipeLeft 0 0 =
          some (.error .AddRandomTileError)) ∧
      (merged ≠ (⟨⟨[[2, 2], [0, 0]]⟩⟩ : Board) → Board.empty_positions merged ≠ [] →
        ∃ x y v, DataGrid.cellAt merged.board y x = some 0 ∧ v ≠ 0 ∧
          Game.handle_event ⟨⟨⟨[[2, 2], [0, 0]]⟩⟩, 0, false, none⟩ .SwipeLeft 0 0 =
            some (.ok { (⟨⟨⟨[[2, 2], [0, 0]]⟩⟩, 0, false, none⟩ : Game) with
              board := (Board.add_random_tile merged 0 0).1 }) ∧
          DataGrid.cellAt (Board.add_random_tile merged 0 0).1.board y x = some v ∧
          (∀ y' x', ¬(y' = y ∧ x' = x) →
            DataGrid.cellAt (Board.add_random_tile merged 0 0).1.board y' x' =
              DataGrid.cellAt merged.board y' x')) :=
  claim_C4_handle_event_spawn ⟨⟨⟨[[2, 2], [0, 0]]⟩⟩, 0, false, none⟩ .SwipeLeft 0 0
    Board.merge_left (by decide) (Or.inr (Or.inr (Or.inl ⟨rfl, rfl⟩)))

end MoveTriggersSpawn
